import Mathlib

/-!
Shallow embedding of `src/main.cpp` of the 2d_grid_route_planner repository
(an A* route planner over a 2-D grid of cells), together with proofs about
the claims of its specification.

Conventions of the embedding:
* `vector<vector<State>>` becomes `Grid := List (List State)`; the search
  node `vector<int> {x, y, g, h}` becomes the structure `SearchNode`;
  C++ `int` becomes `Int` (coordinates can go negative at the border).
* In-bounds reads `grid[x][y]` become `cellAt`; an out-of-range read is
  undefined behaviour in the C++ source and is modelled as `kObstacle`, so
  an out-of-range cell is never treated as open.  In-bounds writes
  `grid[x][y] = s` become `setCell`; an out-of-range write (again UB in the
  source) is modelled as a no-op.
* `std::sort` with the strict comparator `compare` guarantees only a
  permutation ordered by descending `f = g + h`; ties are left unspecified
  by the C++ standard.  `sortNodes` models it with a stable insertion sort
  by descending `f`, which is also exactly what libstdc++'s `std::sort`
  performs on ranges below its 16-element threshold — i.e. on every open
  list arising in the scenarios of the specification.
* The `while (!openNodes.empty())` loop of `searchPath` becomes the
  fuel-indexed `searchLoopF`; `searchPathO` supplies one unit of fuel per
  possible iteration plus one (`searchLoopF_isSome` proves this fuel is
  never exhausted, which is the source loop's termination).  `searchLoopF`
  additionally threads two write-only ghost traces: `deq`, the nodes
  dequeued so far, and `enq`, the nodes ever added to the open list; they
  never influence the computed grid.
* `parseLine` / `readGridFile` model the grid loader on the file's lines
  (the `ifstream`/`getline` plumbing is I/O and stays outside): `>> n` on
  an `int` skips whitespace and parses an optional sign followed by at
  least one digit (integer overflow, which fails the stream in C++, is not
  modelled), `>> c` on a `char` skips whitespace and takes one character,
  and the load aborts to the empty grid on the first line whose parsed row
  comes out empty, exactly as in the source.
-/

namespace RoutePlanner

/-- The custom cell-state type of the source (`enum class State`). -/
inductive State where
  | kEmpty     -- empty cell
  | kObstacle  -- cell containing obstacle
  | kClosed    -- processed cell
  | kPath      -- path cell
  | kStart     -- start cell
  | kFinish    -- goal cell
  | kChosen    -- user chosen cell
deriving DecidableEq, Repr

/-- `vector<vector<State>>` of the source. -/
abbrev Grid := List (List State)

/-- The open-list entry `vector<int> node{x, y, g, h}` of the source. -/
structure SearchNode where
  x : Int
  y : Int
  g : Int
  h : Int
deriving DecidableEq, Repr

/-- `direction_delta` of the source: up, left, down, right. -/
def direction_delta : List (Int × Int) := [(-1, 0), (0, -1), (1, 0), (0, 1)]

/-- The read `grid[x][y]`.  In-bounds it is the stored state; out of range it
is UB in the source and modelled as `kObstacle` (never open). -/
def cellAt (grid : Grid) (x y : Int) : State :=
  if 0 ≤ x ∧ 0 ≤ y then (grid.getD x.toNat []).getD y.toNat State.kObstacle
  else State.kObstacle

/-- The write `grid[x][y] = s`.  In-bounds it updates the cell; out of range
it is UB in the source and modelled as a no-op. -/
def setCell (grid : Grid) (x y : Int) (s : State) : Grid :=
  if 0 ≤ x ∧ 0 ≤ y then grid.set x.toNat ((grid.getD x.toNat []).set y.toNat s)
  else grid

/-- `heuristic` of the source: the Manhattan distance
`abs(x2 - x1) + abs(y2 - y1)`. -/
def heuristic (x1 y1 x2 y2 : Int) : Int :=
  ((x2 - x1).natAbs : Int) + ((y2 - y1).natAbs : Int)

/-- `validPosOnGrid` of the source: `x >= 0 && x < grid.size()` and
`y >= 0 && y < grid[0].size()`. -/
def validPosOnGrid (x y : Int) (grid : Grid) : Bool :=
  decide (0 ≤ x ∧ x < (grid.length : Int)) &&
    decide (0 ≤ y ∧ y < ((grid.headD []).length : Int))

/-- `validOpenNodePos` of the source: on the grid and empty. -/
def validOpenNodePos (x y : Int) (grid : Grid) : Bool :=
  if validPosOnGrid x y grid then cellAt grid x y == State.kEmpty else false

/-- `addToOpenNodes` of the source: push the node and mark its cell
`kClosed`.  The C++ mutates `open` and `grid` in place; the embedding
returns the pair. -/
def addToOpenNodes (node : SearchNode) (opn : List SearchNode) (grid : Grid) :
    List SearchNode × Grid :=
  (opn ++ [node], setCell grid node.x node.y State.kClosed)

/-- `compare` of the source: descending order on `f = g + h`. -/
def compare (node1 node2 : SearchNode) : Bool :=
  node1.g + node1.h > node2.g + node2.h

/-- One step of a stable insertion sort by descending `f = g + h`: the new
node goes after every node of equal or larger `f`. -/
def insertNode (n : SearchNode) : List SearchNode → List SearchNode
  | [] => [n]
  | m :: ms => if n.g + n.h > m.g + m.h then n :: m :: ms else m :: insertNode n ms

/-- `sortNodes` of the source (`std::sort` with `compare`): some permutation
sorted by descending `f = g + h`; ties are unspecified in C++, and the
stable insertion sort used here matches what libstdc++ does on the short
open lists this program produces. -/
def sortNodes (v : List SearchNode) : List SearchNode :=
  v.foldl (fun acc n => insertNode n acc) []

/-- `expandNeighbours` of the source: for the four direction deltas in
order, if the neighbour position is a valid open position, build the node
with `g + 1` and the Manhattan heuristic and add it to the open list
(marking its cell `kClosed`). -/
def expandNeighbours (currNode : SearchNode) (goal : Int × Int)
    (opn : List SearchNode) (grid : Grid) : List SearchNode × Grid :=
  direction_delta.foldl
    (fun acc d =>
      let x := currNode.x + d.1
      let y := currNode.y + d.2
      if validOpenNodePos x y acc.2 then
        addToOpenNodes ⟨x, y, currNode.g + 1,
          heuristic x y goal.1 goal.2⟩ acc.1 acc.2
      else acc)
    (opn, grid)

/-- Number of `kEmpty` cells of the grid; the termination measure of the
search loop (each node ever added to the open list turns one `kEmpty` cell
into `kClosed`). -/
def countEmpty (grid : Grid) : Nat :=
  (grid.map (fun row => row.countP (fun s => s == State.kEmpty))).sum

/-- The `while (!openNodes.empty())` loop of `searchPath`, indexed by fuel
(one unit per iteration; `searchLoopF_isSome` shows the fuel supplied by
`searchPathO` never runs out).  `deq` and `enq` are write-only ghost traces
of the dequeued nodes and of every node ever added to the open list. -/
def searchLoopF (init goal : Int × Int) :
    Nat → List SearchNode → Grid → List SearchNode → List SearchNode →
    Option (Grid × List SearchNode × List SearchNode)
  | 0, _, _, _, _ => none
  | fuel + 1, opn, grid, deq, enq =>
    if opn.isEmpty then
      -- no path to goal was found: return an empty grid
      some (([] : Grid), deq, enq)
    else
      -- sort descending by f = g + h, fetch the back, pop it
      let sorted := sortNodes opn
      let currNode := sorted.getLastD ⟨0, 0, 0, 0⟩
      let rest := sorted.dropLast
      if currNode.x = goal.1 ∧ currNode.y = goal.2 then
        -- reached goal: mark start and end states in the grid
        some (setCell (setCell grid init.1 init.2 State.kStart)
          currNode.x currNode.y State.kFinish, deq ++ [currNode], enq)
      else
        -- not the goal: mark the current node kPath and expand neighbours
        let grid2 := setCell grid currNode.x currNode.y State.kPath
        let r := expandNeighbours currNode goal rest grid2
        searchLoopF init goal fuel r.1 r.2 (deq ++ [currNode])
          (enq ++ r.1.drop rest.length)

/-- `searchPath` of the source with its ghost traces: build the start node,
add it to the open list, and run the loop.  The fuel is one per possible
iteration plus one; `searchLoopF_isSome` proves it suffices. -/
def searchPathO (grid : Grid) (init goal : Int × Int) :
    Option (Grid × List SearchNode × List SearchNode) :=
  let startNode : SearchNode :=
    ⟨init.1, init.2, 0, heuristic init.1 init.2 goal.1 goal.2⟩
  let p := addToOpenNodes startNode [] grid
  searchLoopF init goal (p.1.length + countEmpty p.2 + 1) p.1 p.2 [] [startNode]

/-- `searchPathO` with the (provably unreachable) out-of-fuel default
stripped: the solved grid together with the dequeue and enqueue traces. -/
def searchPathT (grid : Grid) (init goal : Int × Int) :
    Grid × List SearchNode × List SearchNode :=
  (searchPathO grid init goal).getD (([] : Grid), [], [])

/-- `searchPath` of the source: the solved grid on success, the empty grid
when no path to the goal was found. -/
def searchPath (grid : Grid) (init goal : Int × Int) : Grid :=
  (searchPathT grid init goal).1

/-- The g value of the first dequeued node whose coordinate is the goal
(the search stops there, so it is the last entry of the dequeue trace). -/
def firstGoalG (grid : Grid) (init goal : Int × Int) : Option Int :=
  ((searchPathT grid init goal).2.1.find?
    (fun nd => nd.x == goal.1 && nd.y == goal.2)).map (fun nd => nd.g)

/-! ### The grid loader (`parseLine` / `readGridFile`) -/

/-- Whitespace as skipped by `operator>>` under the default locale. -/
def isStreamWs (c : Char) : Bool :=
  c == ' ' || c == '\t' || c == '\n' || c == '\r' ||
    c == (Char.ofNat 11) || c == (Char.ofNat 12)

/-- Greedily take leading decimal digits. -/
def takeDigits : List Char → (List Char × List Char)
  | [] => ([], [])
  | c :: cs =>
    if c.isDigit then
      let r := takeDigits cs
      (c :: r.1, r.2)
    else ([], c :: cs)

/-- Digits to the number they denote. -/
def digitsToNat (ds : List Char) : Nat :=
  ds.foldl (fun acc c => acc * 10 + (c.toNat - '0'.toNat)) 0

/-- `sLine >> n` for `int n`: skip whitespace, then an optional sign
followed by at least one digit; `none` models the failed stream. -/
def readInt (cs : List Char) : Option (Int × List Char) :=
  let cs := cs.dropWhile isStreamWs
  match cs with
  | '-' :: rest =>
    let r := takeDigits rest
    if r.1.isEmpty then none else some (-(digitsToNat r.1 : Int), r.2)
  | '+' :: rest =>
    let r := takeDigits rest
    if r.1.isEmpty then none else some ((digitsToNat r.1 : Int), r.2)
  | _ =>
    let r := takeDigits cs
    if r.1.isEmpty then none else some ((digitsToNat r.1 : Int), r.2)

/-- `sLine >> c` for `char c`: skip whitespace and take one character. -/
def readChar (cs : List Char) : Option (Char × List Char) :=
  match cs.dropWhile isStreamWs with
  | [] => none
  | c :: rest => some (c, rest)

/-- The `while (sLine >> n >> c && c == ',')` loop of `parseLine`, indexed
by fuel (each successful iteration consumes at least two characters, so the
fuel `parseLine` supplies never runs out). -/
def parseLineAux : Nat → List Char → List State
  | 0, _ => []
  | fuel + 1, cs =>
    match readInt cs with
    | none => []
    | some (n, cs1) =>
      match readChar cs1 with
      | none => []
      | some (c, cs2) =>
        if c = ',' then
          (if n ≠ 0 then State.kObstacle else State.kEmpty) :: parseLineAux fuel cs2
        else []

/-- `parseLine` of the source: the row of states parsed from one line. -/
def parseLine (line : List Char) : List State :=
  parseLineAux (line.length + 1) line

/-- The read-and-parse loop of `readGridFile` on the file's lines: `none`
models the aborted load (`grid.clear(); return grid;`) raised by the first
line whose parsed row is empty. -/
def readGridAux : List (List Char) → Option Grid
  | [] => some []
  | l :: rest =>
    let row := parseLine l
    if row.isEmpty then none else (readGridAux rest).map (fun g => row :: g)

/-- `readGridFile` of the source, on the file's lines: the parsed grid, or
the empty grid when some line's row comes out empty. -/
def readGridFile (lines : List (List Char)) : Grid :=
  (readGridAux lines).getD []

/-! ### Reachability through empty cells (the specification side) -/

/-- One legal move of the specification: `b` is one `direction_delta` step
from `a`, and `b` is a valid open (in-bounds, `kEmpty`) position of
`grid`. -/
def stepOK (grid : Grid) (a b : Int × Int) : Prop :=
  (∃ d ∈ direction_delta, b = (a.1 + d.1, a.2 + d.2)) ∧
    validOpenNodePos b.1 b.2 grid = true

/-- `ReachN grid s c n`: there is a 4-connected path of `n` unit steps from
`s` to `c` every cell of which after `s` is an in-bounds `kEmpty` cell of
`grid`. -/
inductive ReachN (grid : Grid) (s : Int × Int) : Int × Int → Nat → Prop where
  | refl : ReachN grid s s 0
  | snoc {b c : Int × Int} {n : Nat} :
      ReachN grid s b n → stepOK grid b c → ReachN grid s c (n + 1)

/-- `ReachF grid t a`: `a` reaches `t` by 4-connected steps through
in-bounds `kEmpty` cells of `grid` (the head `a` itself is unconstrained). -/
inductive ReachF (grid : Grid) (t : Int × Int) : Int × Int → Prop where
  | refl : ReachF grid t t
  | step {a b : Int × Int} :
      stepOK grid a b → ReachF grid t b → ReachF grid t a

/-! ### The scenario grids of the specification -/

/-- Scenario A: 3×3, single obstacle at (1,1). -/
def scenarioA : Grid :=
  [[State.kEmpty, State.kEmpty, State.kEmpty],
   [State.kEmpty, State.kObstacle, State.kEmpty],
   [State.kEmpty, State.kEmpty, State.kEmpty]]

/-- Scenario B: 3×3, a full column of obstacles at column 1. -/
def scenarioB : Grid :=
  [[State.kEmpty, State.kObstacle, State.kEmpty],
   [State.kEmpty, State.kObstacle, State.kEmpty],
   [State.kEmpty, State.kObstacle, State.kEmpty]]

/-- The 2×5 grid on which the search dequeues the goal with a g value
strictly larger than the shortest path length. -/
def cexGrid : Grid :=
  [[State.kEmpty, State.kEmpty, State.kEmpty, State.kEmpty, State.kEmpty],
   [State.kEmpty, State.kObstacle, State.kEmpty, State.kEmpty, State.kEmpty]]

/-! ### Derived notions used to state and prove the claims -/

/-- The neighbour coordinate of a node in direction `d`. -/
def nbr (c : SearchNode) (d : Int × Int) : Int × Int := (c.x + d.1, c.y + d.2)

/-- The node `expandNeighbours` builds for the neighbour of `c` in
direction `d`: cost `g + 1` and the Manhattan heuristic to the goal. -/
def mkNode (c : SearchNode) (goal : Int × Int) (d : Int × Int) : SearchNode :=
  ⟨c.x + d.1, c.y + d.2, c.g + 1, heuristic (c.x + d.1) (c.y + d.2) goal.1 goal.2⟩

/-- The loop body of `expandNeighbours` (one direction delta), named so the
fold can be reasoned about one step at a time. -/
def expandStep (currNode : SearchNode) (goal : Int × Int)
    (acc : List SearchNode × Grid) (d : Int × Int) : List SearchNode × Grid :=
  let x := currNode.x + d.1
  let y := currNode.y + d.2
  if validOpenNodePos x y acc.2 then
    addToOpenNodes ⟨x, y, currNode.g + 1,
      heuristic x y goal.1 goal.2⟩ acc.1 acc.2
  else acc

/-- The node one loop iteration dequeues: the back of the sorted open
list. -/
def curOf (opn : List SearchNode) : SearchNode :=
  (sortNodes opn).getLastD ⟨0, 0, 0, 0⟩

/-- The open list after the pop (`pop_back`). -/
def restOf (opn : List SearchNode) : List SearchNode :=
  (sortNodes opn).dropLast

/-- The nodes one call of `expandNeighbours` appends to the open list, as a
function of the grid it starts from. -/
def newsNodes (c : SearchNode) (goal : Int × Int) (grid : Grid) : List SearchNode :=
  (direction_delta.filter
    (fun d => validOpenNodePos (c.x + d.1) (c.y + d.2) grid)).map (mkNode c goal)

/-- The coordinates of `newsNodes`. -/
def newsCoords (c : SearchNode) (grid : Grid) : List (Int × Int) :=
  (direction_delta.filter
    (fun d => validOpenNodePos (c.x + d.1) (c.y + d.2) grid)).map (nbr c)

/-- The coordinate of a search node. -/
def coordOf (nd : SearchNode) : Int × Int := (nd.x, nd.y)

/-- The priority `f = g + h` of a node. -/
def fval (nd : SearchNode) : Int := nd.g + nd.h

/-- Descending order on `f = g + h`, the order `sortNodes` establishes. -/
def fDesc (a b : SearchNode) : Prop := fval b ≤ fval a

/-- The rows-and-columns shape of a grid. -/
def shapeOf (grid : Grid) : List Nat := grid.map List.length

/-- The start node `searchPath` builds: position `init`, cost 0, Manhattan
heuristic to the goal. -/
def startNodeOf (init goal : Int × Int) : SearchNode :=
  ⟨init.1, init.2, 0, heuristic init.1 init.2 goal.1 goal.2⟩

/-- The optimality claim exactly as the specification states it: for every
rectangular grid with in-bounds, distinct, `kEmpty` start and goal between
which a 4-connected path of `kEmpty` cells exists, the first time the
search dequeues the goal node, that node's g value equals the length of the
shortest such path. -/
def C1Statement : Prop :=
  ∀ (grid : Grid) (init goal : Int × Int) (cols : Nat) (d : Nat),
    (∀ row ∈ grid, row.length = cols) →
    validPosOnGrid init.1 init.2 grid = true →
    validPosOnGrid goal.1 goal.2 grid = true →
    init ≠ goal →
    cellAt grid init.1 init.2 = State.kEmpty →
    cellAt grid goal.1 goal.2 = State.kEmpty →
    ReachN grid init goal d →
    (∀ d', ReachN grid init goal d' → d ≤ d') →
    firstGoalG grid init goal = some (d : Int)

/-- The loop invariant of the search, relative to the input grid `grid0`.
All fields but `cond` hold for every input; the fields bundled under
`cond` additionally need the start cell of `grid0` to be `kEmpty` (the
specification's precondition), because the very first `addToOpenNodes`
overwrites the start cell unconditionally. -/
structure Inv (grid0 : Grid) (init goal : Int × Int)
    (opn : List SearchNode) (grid : Grid) (deq enq : List SearchNode) : Prop where
  shape : shapeOf grid = shapeOf grid0
  mono : ∀ x y : Int, cellAt grid x y = State.kEmpty →
    cellAt grid0 x y = State.kEmpty
  enq_closed : ∀ nd ∈ enq, cellAt grid nd.x nd.y ≠ State.kEmpty
  enq_nodup : (enq.map coordOf).Nodup
  enq_reach : ∀ nd ∈ enq, ∃ n : Nat, nd.g = (n : Int) ∧
    ReachN grid0 init (nd.x, nd.y) n
  start_mem : startNodeOf init goal ∈ enq
  opn_sub : ∀ nd ∈ opn, nd ∈ enq
  deq_sub : ∀ nd ∈ deq, nd ∈ enq
  len_eq : deq.length + opn.length = enq.length
  cnt : enq.length + countEmpty grid ≤ 1 + countEmpty grid0
  deq_ne_goal : ∀ nd ∈ deq, ¬(nd.x = goal.1 ∧ nd.y = goal.2)
  cond : cellAt grid0 init.1 init.2 = State.kEmpty →
    (∀ x y : Int, cellAt grid0 x y = State.kObstacle →
      cellAt grid x y = State.kObstacle) ∧
    (∀ nd ∈ enq, cellAt grid0 nd.x nd.y ≠ State.kObstacle) ∧
    (∀ nd ∈ enq, 0 ≤ nd.x ∧ 0 ≤ nd.y ∧ nd.x.toNat < grid0.length ∧
      nd.y.toNat < (grid0.getD nd.x.toNat []).length) ∧
    (∀ nd ∈ deq, cellAt grid nd.x nd.y = State.kPath)

/-! ## Basic lemmas about lists, cells, shapes and counting -/

theorem getD_set_same {α : Type} (l : List α) (i : Nat) (a d : α)
    (hi : i < l.length) : (l.set i a).getD i d = a := by
  rw [List.getD_eq_getElem?_getD, List.getElem?_set_self hi]
  rfl

theorem getD_set_diff {α : Type} (l : List α) {i j : Nat} (a d : α)
    (h : i ≠ j) : (l.set i a).getD j d = l.getD j d := by
  rw [List.getD_eq_getElem?_getD, List.getElem?_set_ne h,
    ← List.getD_eq_getElem?_getD]

theorem cellAt_nil (x y : Int) : cellAt ([] : Grid) x y = State.kObstacle := by
  unfold cellAt
  split <;> simp

theorem bounds_of_cellAt_empty {grid : Grid} {x y : Int}
    (h : cellAt grid x y = State.kEmpty) :
    0 ≤ x ∧ 0 ≤ y ∧ x.toNat < grid.length ∧
      y.toNat < (grid.getD x.toNat []).length := by
  unfold cellAt at h
  by_cases hg : 0 ≤ x ∧ 0 ≤ y
  · rw [if_pos hg] at h
    refine ⟨hg.1, hg.2, ?_, ?_⟩
    · by_contra hx
      push_neg at hx
      rw [List.getD_eq_default _ _ hx] at h
      rw [List.getD_eq_default _ _ (by simp)] at h
      exact absurd h (by simp)
    · by_contra hy
      push_neg at hy
      rw [List.getD_eq_default _ _ hy] at h
      exact absurd h (by simp)
  · rw [if_neg hg] at h
    exact absurd h (by simp)

theorem cellAt_setCell_self {grid : Grid} {x y : Int} (s : State)
    (hx : 0 ≤ x) (hy : 0 ≤ y) (hxb : x.toNat < grid.length)
    (hyb : y.toNat < (grid.getD x.toNat []).length) :
    cellAt (setCell grid x y s) x y = s := by
  unfold cellAt setCell
  rw [if_pos ⟨hx, hy⟩, if_pos ⟨hx, hy⟩,
    getD_set_same _ _ _ _ hxb, getD_set_same _ _ _ _ hyb]

theorem cellAt_setCell_ne {grid : Grid} {a b x y : Int} (s : State)
    (h : (x, y) ≠ (a, b)) :
    cellAt (setCell grid a b s) x y = cellAt grid x y := by
  unfold cellAt setCell
  by_cases hab : 0 ≤ a ∧ 0 ≤ b
  · rw [if_pos hab]
    by_cases hxy : 0 ≤ x ∧ 0 ≤ y
    · rw [if_pos hxy, if_pos hxy]
      by_cases hXA : a.toNat = x.toNat
      · have hxa : x = a := by omega
        have hyneb : y ≠ b := fun hyb => h (by rw [hxa, hyb])
        have hYB : b.toNat ≠ y.toNat := by omega
        by_cases hlen : a.toNat < grid.length
        · rw [← hXA, getD_set_same _ _ _ _ hlen,
            getD_set_diff _ _ _ hYB]
        · rw [List.set_eq_of_length_le (by omega)]
      · rw [getD_set_diff _ _ _ hXA]
    · rw [if_neg hxy, if_neg hxy]
  · rw [if_neg hab]

theorem set_getD_self {α : Type} (l : List α) (i : Nat) (d : α) :
    l.set i (l.getD i d) = l := by
  induction l generalizing i with
  | nil => simp
  | cons a l ih =>
    cases i with
    | zero => simp
    | succ i =>
      rw [List.getD_cons_succ, List.set_cons_succ, ih]

/-- Every cell of `setCell grid a b s` holds either `s` or what `grid`
holds there. -/
theorem cellAt_setCell_cases (grid : Grid) (a b x y : Int) (s : State) :
    cellAt (setCell grid a b s) x y = s ∨
      cellAt (setCell grid a b s) x y = cellAt grid x y := by
  by_cases h : (x, y) = (a, b)
  · have hx : x = a := congrArg Prod.fst h
    have hy : y = b := congrArg Prod.snd h
    subst hx; subst hy
    by_cases hg : 0 ≤ x ∧ 0 ≤ y
    · by_cases hxb : x.toNat < grid.length
      · by_cases hyb : y.toNat < (grid.getD x.toNat []).length
        · exact Or.inl (cellAt_setCell_self s hg.1 hg.2 hxb hyb)
        · refine Or.inr ?_
          unfold setCell
          rw [if_pos hg,
            List.set_eq_of_length_le
              (show (grid.getD x.toNat []).length ≤ y.toNat by omega),
            set_getD_self]
      · refine Or.inr ?_
        unfold setCell
        rw [if_pos hg, List.set_eq_of_length_le (by omega)]
    · refine Or.inr ?_
      unfold setCell
      rw [if_neg hg]
  · exact Or.inr (cellAt_setCell_ne s h)

/-! ## Shapes -/

theorem headD_length_shape (g : Grid) :
    (g.headD []).length = (shapeOf g).headD 0 := by
  cases g <;> simp [shapeOf]

theorem length_shape (g : Grid) : (shapeOf g).length = g.length := by
  simp [shapeOf]

theorem shapeOf_setCell (grid : Grid) (a b : Int) (s : State) :
    shapeOf (setCell grid a b s) = shapeOf grid := by
  unfold setCell
  by_cases hab : 0 ≤ a ∧ 0 ≤ b
  · rw [if_pos hab]
    by_cases hlen : a.toNat < grid.length
    · unfold shapeOf
      rw [List.map_set]
      rw [List.length_set]
      have : (grid.getD a.toNat []).length =
          (grid.map List.length).getD a.toNat 0 := by
        rw [List.getD_eq_getElem?_getD, List.getD_eq_getElem?_getD,
          List.getElem?_map]
        rcases List.getElem?_eq_some_iff.mpr
          ⟨hlen, rfl⟩ with h
        rw [h]
        simp
      rw [this, set_getD_self]
    · rw [List.set_eq_of_length_le (by omega)]
  · rw [if_neg hab]

theorem validPosOnGrid_congr {g1 g2 : Grid} (x y : Int)
    (h : shapeOf g1 = shapeOf g2) :
    validPosOnGrid x y g1 = validPosOnGrid x y g2 := by
  have hlen : g1.length = g2.length := by
    rw [← length_shape, h, length_shape]
  have hhead : (g1.headD []).length = (g2.headD []).length := by
    rw [headD_length_shape, h, ← headD_length_shape]
  unfold validPosOnGrid
  rw [hlen, hhead]

theorem validOpenNodePos_congr {g1 g2 : Grid} (x y : Int)
    (hsh : shapeOf g1 = shapeOf g2) (hc : cellAt g1 x y = cellAt g2 x y) :
    validOpenNodePos x y g1 = validOpenNodePos x y g2 := by
  unfold validOpenNodePos
  rw [validPosOnGrid_congr x y hsh, hc]

/-! ## Counting empty cells -/

theorem countEmpty_cons (r : List State) (g : Grid) :
    countEmpty (r :: g) = r.countP (fun s => s == State.kEmpty) + countEmpty g := by
  simp [countEmpty]

theorem countEmpty_set_row (g : Grid) (i : Nat) (r : List State)
    (hi : i < g.length) :
    countEmpty (g.set i r) + (g.getD i []).countP (fun s => s == State.kEmpty) =
      countEmpty g + r.countP (fun s => s == State.kEmpty) := by
  induction g generalizing i with
  | nil => simp at hi
  | cons row g ih =>
    cases i with
    | zero =>
      simp only [List.set_cons_zero, List.getD_cons_zero, countEmpty_cons]
      omega
    | succ i =>
      simp only [List.set_cons_succ, List.getD_cons_succ, countEmpty_cons]
      have := ih i (by simpa using hi)
      omega

theorem countEmpty_setCell_lt {grid : Grid} {x y : Int} {s : State}
    (he : cellAt grid x y = State.kEmpty) (hs : s ≠ State.kEmpty) :
    countEmpty (setCell grid x y s) + 1 = countEmpty grid := by
  obtain ⟨hx, hy, hxb, hyb⟩ := bounds_of_cellAt_empty he
  have hrow : (grid.getD x.toNat []).getD y.toNat State.kObstacle = State.kEmpty := by
    unfold cellAt at he
    rwa [if_pos ⟨hx, hy⟩] at he
  unfold setCell
  rw [if_pos ⟨hx, hy⟩]
  have hgl := countEmpty_set_row grid x.toNat
    ((grid.getD x.toNat []).set y.toNat s) hxb
  have hcp := List.countP_set (fun t => t == State.kEmpty)
    (grid.getD x.toNat []) y.toNat s hyb
  have hget : (grid.getD x.toNat [])[y.toNat] = State.kEmpty := by
    rw [List.getD_eq_getElem?_getD, List.getElem?_eq_getElem hyb] at hrow
    simpa using hrow
  rw [hget] at hcp
  have hpos : 0 < (grid.getD x.toNat []).countP (fun t => t == State.kEmpty) := by
    rw [List.countP_pos]
    exact ⟨State.kEmpty, by rw [← hget]; exact List.getElem_mem hyb, by simp⟩
  rw [if_pos (by simp : (State.kEmpty == State.kEmpty) = true),
    if_neg (by simp [hs] : ¬((s == State.kEmpty) = true))] at hcp
  omega

theorem countEmpty_setCell_le (grid : Grid) (x y : Int) {s : State}
    (hs : s ≠ State.kEmpty) :
    countEmpty (setCell grid x y s) ≤ countEmpty grid := by
  unfold setCell
  by_cases hg : 0 ≤ x ∧ 0 ≤ y
  · rw [if_pos hg]
    by_cases hxb : x.toNat < grid.length
    · by_cases hyb : y.toNat < (grid.getD x.toNat []).length
      · have hgl := countEmpty_set_row grid x.toNat
          ((grid.getD x.toNat []).set y.toNat s) hxb
        have hcp := List.countP_set (fun t => t == State.kEmpty)
          (grid.getD x.toNat []) y.toNat s hyb
        rw [if_neg (by simp [hs] : ¬((s == State.kEmpty) = true))] at hcp
        by_cases hq : (((grid.getD x.toNat [])[y.toNat] == State.kEmpty) = true)
        · rw [if_pos hq] at hcp
          omega
        · rw [if_neg hq] at hcp
          omega
      · rw [List.set_eq_of_length_le (show (grid.getD x.toNat []).length ≤ y.toNat by omega),
          set_getD_self]
    · rw [List.set_eq_of_length_le (by omega)]
  · rw [if_neg hg]

/-! ## The sort -/

theorem insertNode_perm (n : SearchNode) (l : List SearchNode) :
    List.Perm (insertNode n l) (n :: l) := by
  induction l with
  | nil => simp [insertNode]
  | cons m ms ih =>
    unfold insertNode
    by_cases h : n.g + n.h > m.g + m.h
    · rw [if_pos h]
    · rw [if_neg h]
      exact (ih.cons m).trans (List.Perm.swap n m ms)

theorem sortNodes_foldl_perm (v acc : List SearchNode) :
    List.Perm (v.foldl (fun a n => insertNode n a) acc) (acc ++ v) := by
  induction v generalizing acc with
  | nil => simp
  | cons n vs ih =>
    simp only [List.foldl_cons]
    refine (ih (insertNode n acc)).trans ?_
    refine (List.Perm.append_right vs (insertNode_perm n acc)).trans ?_
    have : List.Perm (n :: (acc ++ vs)) (acc ++ n :: vs) := List.perm_middle.symm
    simpa using this

theorem sortNodes_perm (v : List SearchNode) : List.Perm (sortNodes v) v := by
  simpa using sortNodes_foldl_perm v []

theorem insertNode_sorted {l : List SearchNode} (n : SearchNode)
    (h : l.Pairwise fDesc) : (insertNode n l).Pairwise fDesc := by
  induction l with
  | nil => simp [insertNode]
  | cons m ms ih =>
    rcases List.pairwise_cons.mp h with ⟨hm, hms⟩
    unfold insertNode
    by_cases hc : n.g + n.h > m.g + m.h
    · rw [if_pos hc]
      refine List.pairwise_cons.mpr ⟨?_, h⟩
      intro x hx
      rcases List.mem_cons.mp hx with rfl | hx
      · unfold fDesc fval; omega
      · have := hm x hx
        unfold fDesc fval at this ⊢
        omega
    · rw [if_neg hc]
      refine List.pairwise_cons.mpr ⟨?_, ih hms⟩
      intro x hx
      have hx' : x ∈ n :: ms := (insertNode_perm n ms).mem_iff.mp hx
      rcases List.mem_cons.mp hx' with rfl | hx'
      · unfold fDesc fval; omega
      · exact hm x hx'

theorem sortNodes_sorted (v : List SearchNode) :
    (sortNodes v).Pairwise fDesc := by
  suffices h : ∀ acc : List SearchNode, acc.Pairwise fDesc →
      (v.foldl (fun a n => insertNode n a) acc).Pairwise fDesc by
    exact h [] (by simp)
  induction v with
  | nil => intro acc hacc; simpa using hacc
  | cons n vs ih =>
    intro acc hacc
    simp only [List.foldl_cons]
    exact ih (insertNode n acc) (insertNode_sorted n hacc)

theorem getLastD_mem {l : List SearchNode} (h : l ≠ []) (d : SearchNode) :
    l.getLastD d ∈ l := by
  rw [List.getLastD_eq_getLast?, List.getLast?_eq_getLast l h]
  exact List.getLast_mem h

theorem pairwise_getLastD_min (l : List SearchNode) :
    ∀ d : SearchNode, l.Pairwise fDesc →
      ∀ nd ∈ l, fval (l.getLastD d) ≤ fval nd := by
  induction l with
  | nil => intro d hp nd h; simp at h
  | cons a l ih =>
    intro d hp nd hnd
    rcases List.pairwise_cons.mp hp with ⟨ha, hl⟩
    cases l with
    | nil =>
      rcases List.mem_cons.mp hnd with rfl | h
      · simp
      · simp at h
    | cons b m =>
      rw [List.getLastD_cons]
      rcases List.mem_cons.mp hnd with rfl | h
      · exact ha _ (getLastD_mem (by simp) nd)
      · exact ih a hl nd h

theorem sortNodes_ne_nil {opn : List SearchNode} (h : opn ≠ []) :
    sortNodes opn ≠ [] := by
  intro hc
  have hl := (sortNodes_perm opn).length_eq
  rw [hc] at hl
  simp only [List.length_nil] at hl
  exact h (List.length_eq_zero.mp hl.symm)

theorem curOf_mem {opn : List SearchNode} (h : opn ≠ []) : curOf opn ∈ opn := by
  exact (sortNodes_perm opn).mem_iff.mp (getLastD_mem (sortNodes_ne_nil h) _)

theorem restOf_append_curOf {opn : List SearchNode} (h : opn ≠ []) :
    restOf opn ++ [curOf opn] = sortNodes opn := by
  have hs : sortNodes opn ≠ [] := sortNodes_ne_nil h
  unfold restOf curOf
  rw [List.getLastD_eq_getLast?, List.getLast?_eq_getLast _ hs]
  exact List.dropLast_concat_getLast hs

theorem curOf_min_f (opn : List SearchNode) :
    ∀ nd ∈ opn, fval (curOf opn) ≤ fval nd := by
  intro nd hnd
  exact pairwise_getLastD_min (sortNodes opn) _ (sortNodes_sorted opn) nd
    ((sortNodes_perm opn).mem_iff.mpr hnd)

/-! ## What `expandNeighbours` does -/

theorem expandNeighbours_eq_foldl (c : SearchNode) (goal : Int × Int)
    (opn : List SearchNode) (grid : Grid) :
    expandNeighbours c goal opn grid =
      direction_delta.foldl (expandStep c goal) (opn, grid) := rfl

theorem nbr_map_nodup (c : SearchNode) : (direction_delta.map (nbr c)).Nodup := by
  refine List.Nodup.map ?_ (by decide)
  intro d1 d2 h
  cases d1; cases d2
  simp only [nbr, Prod.mk.injEq] at h ⊢
  omega

theorem validOpen_after_setCell {grid : Grid} {a b : Int} (s : State)
    {c : SearchNode} {d : Int × Int} (hne : nbr c d ≠ (a, b)) :
    validOpenNodePos (c.x + d.1) (c.y + d.2) (setCell grid a b s) =
      validOpenNodePos (c.x + d.1) (c.y + d.2) grid := by
  exact validOpenNodePos_congr _ _ (shapeOf_setCell grid a b s)
    (cellAt_setCell_ne s (by simpa [nbr] using hne))

/-- One pass of the expansion fold, fully characterised: the appended
nodes, every cell of the resulting grid, the number of consumed empty
cells, and the shape. -/
theorem expandFold_spec (c : SearchNode) (goal : Int × Int) :
    ∀ (ds : List (Int × Int)) (opn : List SearchNode) (grid : Grid),
      (ds.map (nbr c)).Nodup →
      (ds.foldl (expandStep c goal) (opn, grid)).1 =
        opn ++ (ds.filter
          (fun d => validOpenNodePos (c.x + d.1) (c.y + d.2) grid)).map (mkNode c goal) ∧
      (∀ x y : Int,
        cellAt (ds.foldl (expandStep c goal) (opn, grid)).2 x y =
          if (x, y) ∈ (ds.filter
              (fun d => validOpenNodePos (c.x + d.1) (c.y + d.2) grid)).map (nbr c)
          then State.kClosed else cellAt grid x y) ∧
      countEmpty (ds.foldl (expandStep c goal) (opn, grid)).2 +
        (ds.filter
          (fun d => validOpenNodePos (c.x + d.1) (c.y + d.2) grid)).length =
        countEmpty grid ∧
      shapeOf (ds.foldl (expandStep c goal) (opn, grid)).2 = shapeOf grid := by
  intro ds
  induction ds with
  | nil =>
    intro opn grid _
    refine ⟨by simp, fun x y => by simp, by simp, by simp⟩
  | cons d ds ih =>
    intro opn grid hnd
    rw [List.map_cons] at hnd
    rcases List.nodup_cons.mp hnd with ⟨hdnot, hnd'⟩
    by_cases hv : validOpenNodePos (c.x + d.1) (c.y + d.2) grid = true
    · have hstep : expandStep c goal (opn, grid) d =
          (opn ++ [mkNode c goal d],
            setCell grid (c.x + d.1) (c.y + d.2) State.kClosed) := by
        simp [expandStep, addToOpenNodes, hv, mkNode]
      have hcell : cellAt grid (c.x + d.1) (c.y + d.2) = State.kEmpty := by
        unfold validOpenNodePos at hv
        by_cases hp : validPosOnGrid (c.x + d.1) (c.y + d.2) grid = true
        · rw [if_pos hp] at hv
          exact beq_iff_eq.mp hv
        · rw [if_neg hp] at hv
          exact absurd hv (by simp)
      obtain ⟨hb1, hb2, hb3, hb4⟩ := bounds_of_cellAt_empty hcell
      have hfc : ∀ d' ∈ ds,
          validOpenNodePos (c.x + d'.1) (c.y + d'.2)
              (setCell grid (c.x + d.1) (c.y + d.2) State.kClosed) =
            validOpenNodePos (c.x + d'.1) (c.y + d'.2) grid := by
        intro d' hd'
        refine validOpen_after_setCell State.kClosed ?_
        intro hc
        have hmm := List.mem_map_of_mem (nbr c) hd'
        rw [show ((c.x + d.1, c.y + d.2) : Int × Int) = nbr c d from rfl] at hc
        rw [hc] at hmm
        exact hdnot hmm
      have hfilter :
          ds.filter (fun d' => validOpenNodePos (c.x + d'.1) (c.y + d'.2)
            (setCell grid (c.x + d.1) (c.y + d.2) State.kClosed)) =
          ds.filter (fun d' => validOpenNodePos (c.x + d'.1) (c.y + d'.2) grid) :=
        List.filter_congr hfc
      obtain ⟨ih1, ih2, ih3, ih4⟩ :=
        ih (opn ++ [mkNode c goal d])
          (setCell grid (c.x + d.1) (c.y + d.2) State.kClosed) hnd'
      rw [hfilter] at ih1 ih2 ih3
      have hfcons : (d :: ds).filter
          (fun d' => validOpenNodePos (c.x + d'.1) (c.y + d'.2) grid) =
          d :: ds.filter (fun d' => validOpenNodePos (c.x + d'.1) (c.y + d'.2) grid) := by
        simp [List.filter_cons, hv]
      refine ⟨?_, ?_, ?_, ?_⟩
      · rw [List.foldl_cons, hstep, ih1, hfcons]
        simp
      · intro x y
        rw [List.foldl_cons, hstep, ih2 x y, hfcons]
        by_cases hmem : (x, y) ∈ (ds.filter
            (fun d' => validOpenNodePos (c.x + d'.1) (c.y + d'.2) grid)).map (nbr c)
        · rw [if_pos hmem, if_pos (by simp [hmem])]
        · rw [if_neg hmem]
          by_cases hxy : (x, y) = nbr c d
          · rw [if_pos (by simp [hxy])]
            have hx : x = c.x + d.1 := congrArg Prod.fst hxy
            have hy : y = c.y + d.2 := congrArg Prod.snd hxy
            rw [hx, hy]
            exact cellAt_setCell_self State.kClosed hb1 hb2 hb3 hb4
          · rw [if_neg (by
              simp only [List.map_cons, List.mem_cons]
              push_neg
              exact ⟨hxy, by simpa using hmem⟩)]
            exact cellAt_setCell_ne State.kClosed (by simpa [nbr] using hxy)
      · rw [List.foldl_cons, hstep, hfcons]
        have hce := countEmpty_setCell_lt hcell
          (show State.kClosed ≠ State.kEmpty by simp)
        simp only [List.length_cons]
        omega
      · rw [List.foldl_cons, hstep]
        rw [ih4, shapeOf_setCell]
    · have hstep : expandStep c goal (opn, grid) d = (opn, grid) := by
        simp [expandStep, hv]
      obtain ⟨ih1, ih2, ih3, ih4⟩ := ih opn grid hnd'
      have hfcons : (d :: ds).filter
          (fun d' => validOpenNodePos (c.x + d'.1) (c.y + d'.2) grid) =
          ds.filter (fun d' => validOpenNodePos (c.x + d'.1) (c.y + d'.2) grid) := by
        simp [List.filter_cons, hv]
      refine ⟨?_, ?_, ?_, ?_⟩
      · rw [List.foldl_cons, hstep, ih1, hfcons]
      · intro x y
        rw [List.foldl_cons, hstep, ih2 x y, hfcons]
      · rw [List.foldl_cons, hstep, hfcons]
        exact ih3
      · rw [List.foldl_cons, hstep]
        exact ih4

/-- `expandNeighbours` fully characterised in terms of `newsNodes` and
`newsCoords`. -/
theorem expandNeighbours_spec (c : SearchNode) (goal : Int × Int)
    (opn : List SearchNode) (grid : Grid) :
    (expandNeighbours c goal opn grid).1 = opn ++ newsNodes c goal grid ∧
      (∀ x y : Int,
        cellAt (expandNeighbours c goal opn grid).2 x y =
          if (x, y) ∈ newsCoords c grid then State.kClosed
          else cellAt grid x y) ∧
      countEmpty (expandNeighbours c goal opn grid).2 +
        (newsNodes c goal grid).length = countEmpty grid ∧
      shapeOf (expandNeighbours c goal opn grid).2 = shapeOf grid := by
  rw [expandNeighbours_eq_foldl]
  obtain ⟨h1, h2, h3, h4⟩ :=
    expandFold_spec c goal direction_delta opn grid (nbr_map_nodup c)
  exact ⟨h1, h2, by simpa [newsNodes] using h3, h4⟩

/-! ## Stepping the search loop -/

theorem cellAt_of_validOpen {g : Grid} {x y : Int}
    (h : validOpenNodePos x y g = true) : cellAt g x y = State.kEmpty := by
  unfold validOpenNodePos at h
  by_cases hp : validPosOnGrid x y g = true
  · rw [if_pos hp] at h
    exact beq_iff_eq.mp h
  · rw [if_neg hp] at h
    exact absurd h (by simp)

theorem validPos_of_validOpen {g : Grid} {x y : Int}
    (h : validOpenNodePos x y g = true) : validPosOnGrid x y g = true := by
  unfold validOpenNodePos at h
  by_cases hp : validPosOnGrid x y g = true
  · exact hp
  · rw [if_neg hp] at h
    exact absurd h (by simp)

theorem row_length_shape (g : Grid) (i : Nat) :
    (g.getD i []).length = (shapeOf g).getD i 0 := by
  unfold shapeOf
  rw [List.getD_eq_getElem?_getD, List.getD_eq_getElem?_getD, List.getElem?_map]
  cases h : g[i]? <;> simp

theorem mem_newsNodes {c : SearchNode} {goal : Int × Int} {g : Grid}
    {nd : SearchNode} :
    nd ∈ newsNodes c goal g ↔ ∃ d ∈ direction_delta,
      validOpenNodePos (c.x + d.1) (c.y + d.2) g = true ∧ nd = mkNode c goal d := by
  unfold newsNodes
  simp only [List.mem_map, List.mem_filter]
  constructor
  · rintro ⟨d, ⟨hd, hv⟩, rfl⟩
    exact ⟨d, hd, hv, rfl⟩
  · rintro ⟨d, hd, hv, rfl⟩
    exact ⟨d, ⟨hd, hv⟩, rfl⟩

theorem mem_newsCoords {c : SearchNode} {g : Grid} {p : Int × Int} :
    p ∈ newsCoords c g ↔ ∃ d ∈ direction_delta,
      validOpenNodePos (c.x + d.1) (c.y + d.2) g = true ∧ p = nbr c d := by
  unfold newsCoords
  simp only [List.mem_map, List.mem_filter]
  constructor
  · rintro ⟨d, ⟨hd, hv⟩, rfl⟩
    exact ⟨d, hd, hv, rfl⟩
  · rintro ⟨d, hd, hv, rfl⟩
    exact ⟨d, ⟨hd, hv⟩, rfl⟩

theorem newsNodes_map_coord (c : SearchNode) (goal : Int × Int) (g : Grid) :
    (newsNodes c goal g).map coordOf = newsCoords c g := by
  unfold newsNodes newsCoords
  rw [List.map_map]
  rfl

theorem newsCoords_nodup (c : SearchNode) (g : Grid) :
    (newsCoords c g).Nodup := by
  unfold newsCoords
  exact (List.Sublist.map (nbr c) (List.filter_sublist _)).nodup (nbr_map_nodup c)

theorem searchLoopF_zero (init goal : Int × Int) (opn : List SearchNode)
    (grid : Grid) (deq enq : List SearchNode) :
    searchLoopF init goal 0 opn grid deq enq = none := rfl

theorem searchLoopF_nil (init goal : Int × Int) (fuel : Nat) (grid : Grid)
    (deq enq : List SearchNode) :
    searchLoopF init goal (fuel + 1) [] grid deq enq = some (([] : Grid), deq, enq) := by
  simp [searchLoopF]

theorem searchLoopF_goal {init goal : Int × Int} {opn : List SearchNode}
    (fuel : Nat) (grid : Grid) (deq enq : List SearchNode)
    (h : opn ≠ []) (hg : (curOf opn).x = goal.1 ∧ (curOf opn).y = goal.2) :
    searchLoopF init goal (fuel + 1) opn grid deq enq =
      some (setCell (setCell grid init.1 init.2 State.kStart)
        (curOf opn).x (curOf opn).y State.kFinish, deq ++ [curOf opn], enq) := by
  show (if opn.isEmpty then _ else _) = _
  rw [if_neg (by simpa [List.isEmpty_iff] using h)]
  show (if (curOf opn).x = goal.1 ∧ (curOf opn).y = goal.2 then _ else _) = _
  rw [if_pos hg]
  rfl

theorem searchLoopF_cont {init goal : Int × Int} {opn : List SearchNode}
    (fuel : Nat) (grid : Grid) (deq enq : List SearchNode)
    (h : opn ≠ []) (hg : ¬((curOf opn).x = goal.1 ∧ (curOf opn).y = goal.2)) :
    searchLoopF init goal (fuel + 1) opn grid deq enq =
      searchLoopF init goal fuel
        (restOf opn ++ newsNodes (curOf opn) goal
          (setCell grid (curOf opn).x (curOf opn).y State.kPath))
        (expandNeighbours (curOf opn) goal (restOf opn)
          (setCell grid (curOf opn).x (curOf opn).y State.kPath)).2
        (deq ++ [curOf opn])
        (enq ++ newsNodes (curOf opn) goal
          (setCell grid (curOf opn).x (curOf opn).y State.kPath)) := by
  show (if opn.isEmpty then _ else _) = _
  rw [if_neg (by simpa [List.isEmpty_iff] using h)]
  show (if (curOf opn).x = goal.1 ∧ (curOf opn).y = goal.2 then _ else _) = _
  rw [if_neg hg]
  show searchLoopF init goal fuel
      (expandNeighbours (curOf opn) goal (restOf opn)
        (setCell grid (curOf opn).x (curOf opn).y State.kPath)).1
      (expandNeighbours (curOf opn) goal (restOf opn)
        (setCell grid (curOf opn).x (curOf opn).y State.kPath)).2
      (deq ++ [curOf opn])
      (enq ++ ((expandNeighbours (curOf opn) goal (restOf opn)
        (setCell grid (curOf opn).x (curOf opn).y State.kPath)).1.drop
          (restOf opn).length)) = _
  have he1 := (expandNeighbours_spec (curOf opn) goal (restOf opn)
    (setCell grid (curOf opn).x (curOf opn).y State.kPath)).1
  rw [he1]
  rw [List.drop_left]

theorem searchLoopF_isSome (init goal : Int × Int) :
    ∀ (fuel : Nat) (opn : List SearchNode) (grid : Grid)
      (deq enq : List SearchNode),
      opn.length + countEmpty grid < fuel →
      (searchLoopF init goal fuel opn grid deq enq).isSome = true := by
  intro fuel
  induction fuel with
  | zero => intro opn grid deq enq hlt; omega
  | succ fuel ih =>
    intro opn grid deq enq hlt
    by_cases hop : opn = []
    · subst hop
      rw [searchLoopF_nil]
      rfl
    · by_cases hg : (curOf opn).x = goal.1 ∧ (curOf opn).y = goal.2
      · rw [searchLoopF_goal fuel grid deq enq hop hg]
        rfl
      · rw [searchLoopF_cont fuel grid deq enq hop hg]
        apply ih
        have hrest : (restOf opn).length + 1 = opn.length := by
          have := congrArg List.length (restOf_append_curOf hop)
          rw [List.length_append] at this
          have hperm := (sortNodes_perm opn).length_eq
          simp at this
          omega
        have hsp := expandNeighbours_spec (curOf opn) goal (restOf opn)
          (setCell grid (curOf opn).x (curOf opn).y State.kPath)
        have hcnt := hsp.2.2.1
        have hce : countEmpty (setCell grid (curOf opn).x (curOf opn).y State.kPath)
            ≤ countEmpty grid :=
          countEmpty_setCell_le grid _ _ (by simp)
        rw [List.length_append]
        omega

theorem searchPathO_eq (grid : Grid) (init goal : Int × Int) :
    searchPathO grid init goal =
      searchLoopF init goal
        (1 + countEmpty (setCell grid init.1 init.2 State.kClosed) + 1)
        [startNodeOf init goal]
        (setCell grid init.1 init.2 State.kClosed)
        [] [startNodeOf init goal] := rfl

theorem searchPathO_isSome (grid : Grid) (init goal : Int × Int) :
    (searchPathO grid init goal).isSome = true := by
  rw [searchPathO_eq]
  apply searchLoopF_isSome
  simp

theorem searchPathT_eq_of_searchPathO {grid : Grid} {init goal : Int × Int}
    {res : Grid × List SearchNode × List SearchNode}
    (h : searchPathO grid init goal = some res) :
    searchPathT grid init goal = res := by
  unfold searchPathT
  rw [h]
  rfl

theorem searchPathO_eq_some_searchPathT (grid : Grid) (init goal : Int × Int) :
    searchPathO grid init goal = some (searchPathT grid init goal) := by
  rcases Option.isSome_iff_exists.mp (searchPathO_isSome grid init goal) with ⟨r, hr⟩
  rw [hr, searchPathT_eq_of_searchPathO hr]

/-! ## The loop invariant: initialisation and preservation -/

theorem restOf_length {opn : List SearchNode} (h : opn ≠ []) :
    (restOf opn).length + 1 = opn.length := by
  have hc := congrArg List.length (restOf_append_curOf h)
  rw [List.length_append] at hc
  have hperm := (sortNodes_perm opn).length_eq
  simp at hc
  omega

theorem rb_of_shape {g1 g2 : Grid} (hsh : shapeOf g1 = shapeOf g2) {i j : Nat}
    (h1 : i < g2.length) (h2 : j < (g2.getD i []).length) :
    i < g1.length ∧ j < (g1.getD i []).length := by
  constructor
  · have := length_shape g1
    rw [hsh, length_shape] at this
    omega
  · have := row_length_shape g1 i
    rw [hsh, ← row_length_shape] at this
    omega

theorem cellAt_init_closed (grid0 : Grid) (init : Int × Int) :
    cellAt (setCell grid0 init.1 init.2 State.kClosed) init.1 init.2 ≠
      State.kEmpty := by
  intro hc
  rcases cellAt_setCell_cases grid0 init.1 init.2 init.1 init.2 State.kClosed with
    h | h
  · rw [h] at hc
    exact absurd hc (by simp)
  · rw [h] at hc
    obtain ⟨h1, h2, h3, h4⟩ := bounds_of_cellAt_empty hc
    have := cellAt_setCell_self State.kClosed h1 h2 h3 h4
    rw [h] at this
    rw [this] at hc
    exact absurd hc (by simp)

theorem inv_init (grid0 : Grid) (init goal : Int × Int) :
    Inv grid0 init goal [startNodeOf init goal]
      (setCell grid0 init.1 init.2 State.kClosed) [] [startNodeOf init goal] := by
  refine ⟨?_, ?_, ?_, ?_, ?_, ?_, ?_, ?_, ?_, ?_, ?_, ?_⟩
  · exact shapeOf_setCell grid0 init.1 init.2 State.kClosed
  · intro x y h
    rcases cellAt_setCell_cases grid0 init.1 init.2 x y State.kClosed with hc | hc
    · rw [hc] at h
      exact absurd h (by simp)
    · rw [← hc]
      exact h
  · intro nd hnd
    rw [List.mem_singleton] at hnd
    subst hnd
    exact cellAt_init_closed grid0 init
  · simp
  · intro nd hnd
    rw [List.mem_singleton] at hnd
    subst hnd
    exact ⟨0, by simp [startNodeOf], ReachN.refl⟩
  · simp
  · intro nd hnd
    exact hnd
  · intro nd hnd
    simp at hnd
  · simp
  · have := countEmpty_setCell_le grid0 init.1 init.2
      (show State.kClosed ≠ State.kEmpty by simp)
    simp only [List.length_singleton]
    omega
  · intro nd hnd
    simp at hnd
  · intro hE
    refine ⟨?_, ?_, ?_, ?_⟩
    · intro x y hob
      by_cases hxy : (x, y) = (init.1, init.2)
      · have hx : x = init.1 := congrArg Prod.fst hxy
        have hy : y = init.2 := congrArg Prod.snd hxy
        rw [hx, hy, hE] at hob
        exact absurd hob (by simp)
      · rw [cellAt_setCell_ne State.kClosed hxy]
        exact hob
    · intro nd hnd
      rw [List.mem_singleton] at hnd
      subst hnd
      rw [show (startNodeOf init goal).x = init.1 from rfl,
        show (startNodeOf init goal).y = init.2 from rfl, hE]
      simp
    · intro nd hnd
      rw [List.mem_singleton] at hnd
      subst hnd
      exact bounds_of_cellAt_empty hE
    · intro nd hnd
      simp at hnd

theorem inv_step {grid0 : Grid} {init goal : Int × Int}
    {opn : List SearchNode} {grid : Grid} {deq enq : List SearchNode}
    (hI : Inv grid0 init goal opn grid deq enq)
    (hop : opn ≠ [])
    (hg : ¬((curOf opn).x = goal.1 ∧ (curOf opn).y = goal.2)) :
    Inv grid0 init goal
      (restOf opn ++ newsNodes (curOf opn) goal
        (setCell grid (curOf opn).x (curOf opn).y State.kPath))
      (expandNeighbours (curOf opn) goal (restOf opn)
        (setCell grid (curOf opn).x (curOf opn).y State.kPath)).2
      (deq ++ [curOf opn])
      (enq ++ newsNodes (curOf opn) goal
        (setCell grid (curOf opn).x (curOf opn).y State.kPath)) := by
  set c := curOf opn
  set grid2 := setCell grid c.x c.y State.kPath
  set news := newsNodes c goal grid2 with hnews
  set grid3 := (expandNeighbours c goal (restOf opn) grid2).2 with hgrid3
  have hcmem : c ∈ opn := curOf_mem hop
  have hcenq : c ∈ enq := hI.opn_sub c hcmem
  have hcclosed : cellAt grid c.x c.y ≠ State.kEmpty := hI.enq_closed c hcenq
  obtain ⟨hop1, hpt, hcnt3, hsh3⟩ := expandNeighbours_spec c goal (restOf opn) grid2
  rw [← hnews, ← hgrid3] at hcnt3
  have hsh2 : shapeOf grid2 = shapeOf grid := shapeOf_setCell grid c.x c.y State.kPath
  have hg2cases : ∀ x y : Int, cellAt grid2 x y = State.kPath ∨
      cellAt grid2 x y = cellAt grid x y := fun x y =>
    cellAt_setCell_cases grid c.x c.y x y State.kPath
  have hnews_empty2 : ∀ p ∈ newsCoords c grid2, cellAt grid2 p.1 p.2 = State.kEmpty := by
    intro p hp
    rcases mem_newsCoords.mp hp with ⟨d, _, hv, rfl⟩
    exact cellAt_of_validOpen hv
  have hnews_empty : ∀ p ∈ newsCoords c grid2, cellAt grid p.1 p.2 = State.kEmpty := by
    intro p hp
    rcases hg2cases p.1 p.2 with hc2 | hc2
    · rw [hnews_empty2 p hp] at hc2
      exact absurd hc2.symm (by simp)
    · rw [← hc2]
      exact hnews_empty2 p hp
  have hnews_empty0 : ∀ p ∈ newsCoords c grid2,
      cellAt grid0 p.1 p.2 = State.kEmpty := fun p hp =>
    hI.mono p.1 p.2 (hnews_empty p hp)
  have hmapc : news.map coordOf = newsCoords c grid2 := newsNodes_map_coord c goal grid2
  have hnews_coord : ∀ nd ∈ news, ((nd.x, nd.y) : Int × Int) ∈ newsCoords c grid2 := by
    intro nd hnd
    rw [← hmapc]
    exact List.mem_map_of_mem coordOf hnd
  have hrest_sub : ∀ nd ∈ restOf opn, nd ∈ opn := by
    intro nd hnd
    refine (sortNodes_perm opn).mem_iff.mp ?_
    rw [← restOf_append_curOf hop]
    exact List.mem_append_left _ hnd
  have henq_closed2 : ∀ nd ∈ enq, cellAt grid2 nd.x nd.y ≠ State.kEmpty := by
    intro nd hnd
    rcases hg2cases nd.x nd.y with hc2 | hc2
    · rw [hc2]; simp
    · rw [hc2]; exact hI.enq_closed nd hnd
  have henq_not_news : ∀ nd ∈ enq, ((nd.x, nd.y) : Int × Int) ∉ newsCoords c grid2 := by
    intro nd hnd hmem
    exact henq_closed2 nd hnd (hnews_empty2 _ hmem)
  refine ⟨?_, ?_, ?_, ?_, ?_, ?_, ?_, ?_, ?_, ?_, ?_, ?_⟩
  · exact hsh3.trans (hsh2.trans hI.shape)
  · intro x y h3
    by_cases hm : ((x, y) : Int × Int) ∈ newsCoords c grid2
    · rw [hpt x y, if_pos hm] at h3
      exact absurd h3 (by simp)
    · rw [hpt x y, if_neg hm] at h3
      rcases hg2cases x y with hc2 | hc2
      · rw [hc2] at h3
        exact absurd h3 (by simp)
      · rw [hc2] at h3
        exact hI.mono x y h3
  · intro nd hnd
    rcases List.mem_append.mp hnd with hnd | hnd
    · by_cases hm : ((nd.x, nd.y) : Int × Int) ∈ newsCoords c grid2
      · rw [hpt nd.x nd.y, if_pos hm]
        simp
      · rw [hpt nd.x nd.y, if_neg hm]
        exact henq_closed2 nd hnd
    · rw [hpt nd.x nd.y, if_pos (hnews_coord nd hnd)]
      simp
  · rw [List.map_append, List.nodup_append]
    refine ⟨hI.enq_nodup, by rw [hmapc]; exact newsCoords_nodup c grid2, ?_⟩
    intro p hp hq
    rcases List.mem_map.mp hp with ⟨nd, hnd, rfl⟩
    rw [hmapc] at hq
    exact henq_not_news nd hnd hq
  · intro nd hnd
    rcases List.mem_append.mp hnd with hnd | hnd
    · exact hI.enq_reach nd hnd
    · rcases mem_newsNodes.mp hnd with ⟨d, hd, hv, rfl⟩
      obtain ⟨n, hgn, hr⟩ := hI.enq_reach c hcenq
      refine ⟨n + 1, by rw [show (mkNode c goal d).g = c.g + 1 from rfl, hgn]; omega, ?_⟩
      refine ReachN.snoc hr ⟨⟨d, hd, rfl⟩, ?_⟩
      have hcell2 : cellAt grid2 (c.x + d.1) (c.y + d.2) = State.kEmpty :=
        cellAt_of_validOpen hv
      have hmemc : ((c.x + d.1, c.y + d.2) : Int × Int) ∈ newsCoords c grid2 := by
        rw [mem_newsCoords]
        exact ⟨d, hd, hv, rfl⟩
      have hcell0 : cellAt grid0 (c.x + d.1) (c.y + d.2) = State.kEmpty :=
        hnews_empty0 _ hmemc
      have hco := validOpenNodePos_congr (c.x + d.1) (c.y + d.2)
        (hsh2.trans hI.shape) (by rw [hcell2, hcell0])
      show validOpenNodePos (c.x + d.1) (c.y + d.2) grid0 = true
      rw [← hco]
      exact hv
  · exact List.mem_append_left _ hI.start_mem
  · intro nd hnd
    rcases List.mem_append.mp hnd with hnd | hnd
    · exact List.mem_append_left _ (hI.opn_sub nd (hrest_sub nd hnd))
    · exact List.mem_append_right _ hnd
  · intro nd hnd
    rcases List.mem_append.mp hnd with hnd | hnd
    · exact List.mem_append_left _ (hI.deq_sub nd hnd)
    · rw [List.mem_singleton] at hnd
      subst hnd
      exact List.mem_append_left _ hcenq
  · have h1 := restOf_length hop
    have h2 := hI.len_eq
    simp only [List.length_append, List.length_singleton]
    omega
  · have hce2 : countEmpty grid2 ≤ countEmpty grid :=
      countEmpty_setCell_le grid c.x c.y (by simp)
    have h2 := hI.cnt
    simp only [List.length_append]
    omega
  · intro nd hnd
    rcases List.mem_append.mp hnd with hnd | hnd
    · exact hI.deq_ne_goal nd hnd
    · rw [List.mem_singleton] at hnd
      subst hnd
      exact hg
  · intro hE
    obtain ⟨hobst, hnotobst, hrb, hdeqpath⟩ := hI.cond hE
    have hrbc := hrb c hcenq
    have hrbg : c.x.toNat < grid.length ∧
        c.y.toNat < (grid.getD c.x.toNat []).length :=
      rb_of_shape hI.shape hrbc.2.2.1 hrbc.2.2.2
    have hg2self : cellAt grid2 c.x c.y = State.kPath :=
      cellAt_setCell_self State.kPath hrbc.1 hrbc.2.1 hrbg.1 hrbg.2
    have hc_not_news : ((c.x, c.y) : Int × Int) ∉ newsCoords c grid2 := by
      intro hm
      have := hnews_empty2 _ hm
      rw [hg2self] at this
      exact absurd this (by simp)
    refine ⟨?_, ?_, ?_, ?_⟩
    · intro x y hob
      have hgob := hobst x y hob
      have hxyc : (x, y) ≠ ((c.x, c.y) : Int × Int) := by
        intro hc2
        have hx : x = c.x := congrArg Prod.fst hc2
        have hy : y = c.y := congrArg Prod.snd hc2
        rw [hx, hy] at hob
        exact hnotobst c hcenq hob
      have hm : ((x, y) : Int × Int) ∉ newsCoords c grid2 := by
        intro hm
        rw [hnews_empty0 _ hm] at hob
        exact absurd hob (by simp)
      rw [hpt x y, if_neg hm, cellAt_setCell_ne State.kPath hxyc]
      exact hgob
    · intro nd hnd
      rcases List.mem_append.mp hnd with hnd | hnd
      · exact hnotobst nd hnd
      · have hm := hnews_coord nd hnd
        rw [hnews_empty0 _ hm]
        simp
    · intro nd hnd
      rcases List.mem_append.mp hnd with hnd | hnd
      · exact hrb nd hnd
      · have hm := hnews_coord nd hnd
        have hcell2 := hnews_empty2 _ hm
        obtain ⟨hb1, hb2, hb3, hb4⟩ := bounds_of_cellAt_empty hcell2
        have hbt := rb_of_shape ((hsh2.trans hI.shape).symm) hb3 hb4
        exact ⟨hb1, hb2, hbt.1, hbt.2⟩
    · intro nd hnd
      rcases List.mem_append.mp hnd with hnd | hnd
      · have hold := hdeqpath nd hnd
        have hg2nd : cellAt grid2 nd.x nd.y = State.kPath := by
          rcases hg2cases nd.x nd.y with hc2 | hc2
          · exact hc2
          · rw [hc2]; exact hold
        have hm : ((nd.x, nd.y) : Int × Int) ∉ newsCoords c grid2 := by
          intro hm
          rw [hnews_empty2 _ hm] at hg2nd
          exact absurd hg2nd (by simp)
        rw [hpt nd.x nd.y, if_neg hm]
        exact hg2nd
      · rw [List.mem_singleton] at hnd
        subst hnd
        rw [hpt c.x c.y, if_neg hc_not_news]
        exact hg2self

/-! ## Running the loop: the master postcondition -/

theorem run_master (grid0 : Grid) (init goal : Int × Int) :
    ∀ (fuel : Nat) (opn : List SearchNode) (grid : Grid)
      (deq enq : List SearchNode)
      (res : Grid × List SearchNode × List SearchNode),
      searchLoopF init goal fuel opn grid deq enq = some res →
      Inv grid0 init goal opn grid deq enq →
      (∀ nd ∈ res.2.1, nd ∈ res.2.2) ∧
      (∀ nd ∈ res.2.2, ∃ n : Nat, nd.g = (n : Int) ∧
        ReachN grid0 init (nd.x, nd.y) n) ∧
      (res.2.2.map coordOf).Nodup ∧
      res.2.2.length ≤ 1 + countEmpty grid0 ∧
      res.2.1.length ≤ res.2.2.length ∧
      (cellAt grid0 init.1 init.2 = State.kEmpty →
        ∀ nd ∈ res.2.2, cellAt grid0 nd.x nd.y ≠ State.kObstacle) ∧
      ((res.1 = [] ∧ ∀ nd ∈ res.2.1, ¬(nd.x = goal.1 ∧ nd.y = goal.2)) ∨
       ((∃ nd ∈ res.2.1, nd.x = goal.1 ∧ nd.y = goal.2) ∧
        shapeOf res.1 = shapeOf grid0 ∧
        (cellAt grid0 init.1 init.2 = State.kEmpty → init ≠ goal →
          cellAt res.1 init.1 init.2 = State.kStart ∧
          cellAt res.1 goal.1 goal.2 = State.kFinish ∧
          (∀ x y : Int, cellAt grid0 x y = State.kObstacle →
            cellAt res.1 x y = State.kObstacle) ∧
          (∀ nd ∈ res.2.1, ¬(nd.x = goal.1 ∧ nd.y = goal.2) →
            ¬(nd.x = init.1 ∧ nd.y = init.2) →
            cellAt res.1 nd.x nd.y = State.kPath)))) := by
  intro fuel
  induction fuel with
  | zero =>
    intro opn grid deq enq res hrun
    rw [searchLoopF_zero] at hrun
    exact absurd hrun (by simp)
  | succ fuel ih =>
    intro opn grid deq enq res hrun hI
    by_cases hop : opn = []
    · subst hop
      rw [searchLoopF_nil] at hrun
      rcases Option.some.inj hrun with rfl
      refine ⟨hI.deq_sub, hI.enq_reach, hI.enq_nodup, ?_, ?_, ?_, ?_⟩
      · show enq.length ≤ 1 + countEmpty grid0
        have := hI.cnt
        omega
      · show deq.length ≤ enq.length
        have := hI.len_eq
        simp only [List.length_nil] at this
        omega
      · intro hE
        exact (hI.cond hE).2.1
      · exact Or.inl ⟨rfl, hI.deq_ne_goal⟩
    · by_cases hgoal : (curOf opn).x = goal.1 ∧ (curOf opn).y = goal.2
      · rw [searchLoopF_goal fuel grid deq enq hop hgoal] at hrun
        rcases Option.some.inj hrun with rfl
        have hcenq : curOf opn ∈ enq := hI.opn_sub _ (curOf_mem hop)
        have hoplen : 0 < opn.length := List.length_pos.mpr hop
        refine ⟨?_, hI.enq_reach, hI.enq_nodup, ?_, ?_, ?_, ?_⟩
        · intro nd hnd
          rcases List.mem_append.mp hnd with hnd | hnd
          · exact hI.deq_sub nd hnd
          · rw [List.mem_singleton] at hnd
            subst hnd
            exact hcenq
        · show enq.length ≤ 1 + countEmpty grid0
          have := hI.cnt
          omega
        · show (deq ++ [curOf opn]).length ≤ enq.length
          have := hI.len_eq
          simp only [List.length_append, List.length_singleton]
          omega
        · intro hE
          exact (hI.cond hE).2.1
        · refine Or.inr ⟨⟨curOf opn, List.mem_append_right _ (by simp), hgoal⟩, ?_, ?_⟩
          · show shapeOf (setCell (setCell grid init.1 init.2 State.kStart)
              (curOf opn).x (curOf opn).y State.kFinish) = shapeOf grid0
            rw [shapeOf_setCell, shapeOf_setCell]
            exact hI.shape
          · intro hE hne
            obtain ⟨hobst, hnotobst, hrb, hdeqpath⟩ := hI.cond hE
            have hrbi0 := bounds_of_cellAt_empty hE
            have hrbig := rb_of_shape hI.shape hrbi0.2.2.1 hrbi0.2.2.2
            have hrbc0 := hrb _ hcenq
            have hshape_inner : shapeOf (setCell grid init.1 init.2 State.kStart) =
                shapeOf grid0 := by
              rw [shapeOf_setCell]; exact hI.shape
            have hrbci := rb_of_shape hshape_inner hrbc0.2.2.1 hrbc0.2.2.2
            have hipair_ne : ((init.1, init.2) : Int × Int) ≠
                ((curOf opn).x, (curOf opn).y) := by
              intro hp
              have h1 : init.1 = (curOf opn).x := congrArg Prod.fst hp
              have h2 : init.2 = (curOf opn).y := congrArg Prod.snd hp
              exact hne (Prod.ext_iff.mpr ⟨h1.trans hgoal.1, h2.trans hgoal.2⟩)
            refine ⟨?_, ?_, ?_, ?_⟩
            · show cellAt (setCell (setCell grid init.1 init.2 State.kStart)
                (curOf opn).x (curOf opn).y State.kFinish) init.1 init.2 = State.kStart
              rw [cellAt_setCell_ne State.kFinish hipair_ne]
              exact cellAt_setCell_self State.kStart hrbi0.1 hrbi0.2.1
                hrbig.1 hrbig.2
            · show cellAt (setCell (setCell grid init.1 init.2 State.kStart)
                (curOf opn).x (curOf opn).y State.kFinish) goal.1 goal.2 = State.kFinish
              rw [← hgoal.1, ← hgoal.2]
              exact cellAt_setCell_self State.kFinish hrbc0.1 hrbc0.2.1
                hrbci.1 hrbci.2
            · intro x y hob
              show cellAt (setCell (setCell grid init.1 init.2 State.kStart)
                (curOf opn).x (curOf opn).y State.kFinish) x y = State.kObstacle
              have hne1 : ((x, y) : Int × Int) ≠ ((curOf opn).x, (curOf opn).y) := by
                intro hp
                have h1 : x = (curOf opn).x := congrArg Prod.fst hp
                have h2 : y = (curOf opn).y := congrArg Prod.snd hp
                rw [h1, h2] at hob
                exact hnotobst _ hcenq hob
              have hne2 : ((x, y) : Int × Int) ≠ (init.1, init.2) := by
                intro hp
                have h1 : x = init.1 := congrArg Prod.fst hp
                have h2 : y = init.2 := congrArg Prod.snd hp
                rw [h1, h2, hE] at hob
                exact absurd hob (by simp)
              rw [cellAt_setCell_ne State.kFinish hne1,
                cellAt_setCell_ne State.kStart hne2]
              exact hobst x y hob
            · intro nd hnd hng hni
              rcases List.mem_append.mp hnd with hnd | hnd
              · show cellAt (setCell (setCell grid init.1 init.2 State.kStart)
                  (curOf opn).x (curOf opn).y State.kFinish) nd.x nd.y = State.kPath
                have hne1 : ((nd.x, nd.y) : Int × Int) ≠
                    ((curOf opn).x, (curOf opn).y) := by
                  intro hp
                  have h1 : nd.x = (curOf opn).x := congrArg Prod.fst hp
                  have h2 : nd.y = (curOf opn).y := congrArg Prod.snd hp
                  exact hng ⟨h1.trans hgoal.1, h2.trans hgoal.2⟩
                have hne2 : ((nd.x, nd.y) : Int × Int) ≠ (init.1, init.2) := by
                  intro hp
                  exact hni ⟨congrArg Prod.fst hp, congrArg Prod.snd hp⟩
                rw [cellAt_setCell_ne State.kFinish hne1,
                  cellAt_setCell_ne State.kStart hne2]
                exact hdeqpath nd hnd
              · rw [List.mem_singleton] at hnd
                subst hnd
                exact absurd hgoal hng
      · rw [searchLoopF_cont fuel grid deq enq hop hgoal] at hrun
        exact ih _ _ _ _ res hrun (inv_step hI hop hgoal)

/-! ## Completeness: an existing path is found -/

theorem reachF_setCell {grid : Grid} {t : Int × Int} {a : Int × Int}
    (p q : Int) (s : State) (h : ReachF grid t a) :
    ReachF (setCell grid p q s) t a ∨
      ReachF (setCell grid p q s) t ((p, q) : Int × Int) := by
  induction h with
  | refl => exact Or.inl ReachF.refl
  | @step a b h1 h2 ih =>
    rcases ih with ihl | ihr
    · by_cases hbp : b = ((p, q) : Int × Int)
      · exact Or.inr (hbp ▸ ihl)
      · refine Or.inl (ReachF.step ⟨h1.1, ?_⟩ ihl)
        have hco := validOpenNodePos_congr b.1 b.2
          (shapeOf_setCell grid p q s)
          (cellAt_setCell_ne s (show ((b.1, b.2) : Int × Int) ≠ (p, q) from hbp))
        rw [hco]
        exact h1.2
    · exact Or.inr ihr

theorem reachF_extend {grid : Grid} {t a c : Int × Int}
    (h : ReachF grid t a) (hs : stepOK grid t c) : ReachF grid c a := by
  induction h with
  | refl => exact ReachF.step hs ReachF.refl
  | @step a b h1 _ ih => exact ReachF.step h1 ih

theorem reachN_to_reachF {grid : Grid} {s c : Int × Int} {n : Nat}
    (h : ReachN grid s c n) : ReachF grid c s := by
  induction h with
  | refl => exact ReachF.refl
  | @snoc b c n _ hs ih => exact reachF_extend ih hs

theorem neighbor_in_news {grid2 : Grid} {c : SearchNode} {b : Int × Int}
    (hadj : ∃ d ∈ direction_delta,
      b = ((((c.x, c.y) : Int × Int).1 + d.1, ((c.x, c.y) : Int × Int).2 + d.2) : Int × Int))
    (hvb : validOpenNodePos b.1 b.2 grid2 = true) :
    b ∈ newsCoords c grid2 := by
  rcases hadj with ⟨d, hd, rfl⟩
  rw [mem_newsCoords]
  exact ⟨d, hd, hvb, rfl⟩

theorem reachF_transfer {grid : Grid} {t : Int × Int} (c : SearchNode)
    (goal : Int × Int) (rest : List SearchNode)
    (hcc : cellAt grid c.x c.y ≠ State.kEmpty) :
    ∀ a, ReachF grid t a →
      ReachF (expandNeighbours c goal rest
        (setCell grid c.x c.y State.kPath)).2 t a ∨
      ∃ w ∈ newsCoords c (setCell grid c.x c.y State.kPath),
        ReachF (expandNeighbours c goal rest
          (setCell grid c.x c.y State.kPath)).2 t w := by
  set grid2 := setCell grid c.x c.y State.kPath
  set grid3 := (expandNeighbours c goal rest grid2).2 with hgrid3
  obtain ⟨_, hpt, _, hsh3⟩ := expandNeighbours_spec c goal rest grid2
  have hsh2 : shapeOf grid2 = shapeOf grid := shapeOf_setCell grid c.x c.y State.kPath
  intro a h
  induction h with
  | refl => exact Or.inl ReachF.refl
  | @step a b h1 h2 ih =>
    rcases ih with ihl | ihr
    · by_cases hbn : b ∈ newsCoords c grid2
      · exact Or.inr ⟨b, hbn, ihl⟩
      · have hbc : b ≠ ((c.x, c.y) : Int × Int) := by
          intro hb
          have := cellAt_of_validOpen h1.2
          rw [hb] at this
          exact hcc this
        refine Or.inl (ReachF.step ⟨h1.1, ?_⟩ ihl)
        have hc2 : cellAt grid2 b.1 b.2 = cellAt grid b.1 b.2 :=
          cellAt_setCell_ne State.kPath
            (show ((b.1, b.2) : Int × Int) ≠ (c.x, c.y) from hbc)
        have hc3 : cellAt grid3 b.1 b.2 = cellAt grid b.1 b.2 := by
          rw [hpt b.1 b.2, if_neg (show ((b.1, b.2) : Int × Int) ∉
            newsCoords c grid2 from hbn), hc2]
        have hco := validOpenNodePos_congr b.1 b.2
          (hsh3.trans hsh2) hc3
        rw [hco]
        exact h1.2
    · exact Or.inr ihr

theorem run_complete (grid0 : Grid) (init goal : Int × Int) :
    ∀ (fuel : Nat) (opn : List SearchNode) (grid : Grid)
      (deq enq : List SearchNode)
      (res : Grid × List SearchNode × List SearchNode),
      searchLoopF init goal fuel opn grid deq enq = some res →
      Inv grid0 init goal opn grid deq enq →
      (∃ nd ∈ opn, ReachF grid goal ((nd.x, nd.y) : Int × Int)) →
      ∃ nd ∈ res.2.1, nd.x = goal.1 ∧ nd.y = goal.2 := by
  intro fuel
  induction fuel with
  | zero =>
    intro opn grid deq enq res hrun
    rw [searchLoopF_zero] at hrun
    exact absurd hrun (by simp)
  | succ fuel ih =>
    intro opn grid deq enq res hrun hI hex
    by_cases hop : opn = []
    · subst hop
      rcases hex with ⟨nd, hnd, _⟩
      simp at hnd
    · by_cases hgoal : (curOf opn).x = goal.1 ∧ (curOf opn).y = goal.2
      · rw [searchLoopF_goal fuel grid deq enq hop hgoal] at hrun
        rcases Option.some.inj hrun with rfl
        exact ⟨curOf opn, List.mem_append_right _ (by simp), hgoal⟩
      · rw [searchLoopF_cont fuel grid deq enq hop hgoal] at hrun
        refine ih _ _ _ _ res hrun (inv_step hI hop hgoal) ?_
        rcases hex with ⟨nd, hnd, hr⟩
        have hcenq : curOf opn ∈ enq := hI.opn_sub _ (curOf_mem hop)
        have hcc : cellAt grid (curOf opn).x (curOf opn).y ≠ State.kEmpty :=
          hI.enq_closed _ hcenq
        have hmapc : (newsNodes (curOf opn) goal
            (setCell grid (curOf opn).x (curOf opn).y State.kPath)).map coordOf =
            newsCoords (curOf opn)
              (setCell grid (curOf opn).x (curOf opn).y State.kPath) :=
          newsNodes_map_coord _ goal _
        have hfromw : ∀ w ∈ newsCoords (curOf opn)
            (setCell grid (curOf opn).x (curOf opn).y State.kPath),
            ReachF (expandNeighbours (curOf opn) goal (restOf opn)
              (setCell grid (curOf opn).x (curOf opn).y State.kPath)).2 goal w →
            ∃ nd2 ∈ restOf opn ++ newsNodes (curOf opn) goal
              (setCell grid (curOf opn).x (curOf opn).y State.kPath),
              ReachF (expandNeighbours (curOf opn) goal (restOf opn)
                (setCell grid (curOf opn).x (curOf opn).y State.kPath)).2 goal
                ((nd2.x, nd2.y) : Int × Int) := by
          intro w hw hrw
          rw [← hmapc] at hw
          rcases List.mem_map.mp hw with ⟨ndw, hndw, rfl⟩
          exact ⟨ndw, List.mem_append_right _ hndw, hrw⟩
        by_cases hndc : nd = curOf opn
        · subst hndc
          cases hr with
          | refl =>
            exact absurd ⟨rfl, rfl⟩ hgoal
          | @step a b h1 h2 =>
            have hbne : b ≠ (((curOf opn).x, (curOf opn).y) : Int × Int) := by
              intro hb
              have := cellAt_of_validOpen h1.2
              rw [hb] at this
              exact hcc this
            have hc2 : cellAt (setCell grid (curOf opn).x (curOf opn).y
                State.kPath) b.1 b.2 = cellAt grid b.1 b.2 :=
              cellAt_setCell_ne State.kPath
                (show ((b.1, b.2) : Int × Int) ≠ ((curOf opn).x, (curOf opn).y)
                  from hbne)
            have hvb2 : validOpenNodePos b.1 b.2
                (setCell grid (curOf opn).x (curOf opn).y State.kPath) = true := by
              have hco := validOpenNodePos_congr b.1 b.2
                (shapeOf_setCell grid (curOf opn).x (curOf opn).y State.kPath) hc2
              rw [hco]
              exact h1.2
            have hbnews : b ∈ newsCoords (curOf opn)
                (setCell grid (curOf opn).x (curOf opn).y State.kPath) :=
              neighbor_in_news h1.1 hvb2
            rcases reachF_transfer (curOf opn) goal (restOf opn) hcc b h2 with htl | htr
            · exact hfromw b hbnews htl
            · rcases htr with ⟨w, hw, hrw⟩
              exact hfromw w hw hrw
        · have hndrest : nd ∈ restOf opn := by
            have hmem : nd ∈ sortNodes opn := (sortNodes_perm opn).mem_iff.mpr hnd
            rw [← restOf_append_curOf hop] at hmem
            rcases List.mem_append.mp hmem with hmem | hmem
            · exact hmem
            · rw [List.mem_singleton] at hmem
              exact absurd hmem hndc
          rcases reachF_transfer (curOf opn) goal (restOf opn) hcc _ hr with htl | htr
          · exact ⟨nd, List.mem_append_left _ hndrest, htl⟩
          · rcases htr with ⟨w, hw, hrw⟩
            exact hfromw w hw hrw

/-! ## The Manhattan lower bound, counting bound, and loader lemmas -/

theorem reachN_manhattan {grid : Grid} {s c : Int × Int} {n : Nat}
    (h : ReachN grid s c n) : heuristic s.1 s.2 c.1 c.2 ≤ (n : Int) := by
  induction h with
  | refl => simp [heuristic]
  | @snoc b c n hr hs ih =>
    rcases hs.1 with ⟨d, hd, rfl⟩
    have hstep : heuristic s.1 s.2 (b.1 + d.1) (b.2 + d.2) ≤
        heuristic s.1 s.2 b.1 b.2 + 1 := by
      simp only [direction_delta, List.mem_cons, List.mem_singleton,
        List.not_mem_nil, or_false] at hd
      rcases hd with rfl | rfl | rfl | rfl <;>
        · unfold heuristic
          omega
    have hcast : ((n + 1 : Nat) : Int) = (n : Int) + 1 := by push_cast; ring
    rw [hcast]
    calc heuristic s.1 s.2 (b.1 + d.1, b.2 + d.2).1 (b.1 + d.1, b.2 + d.2).2
        = heuristic s.1 s.2 (b.1 + d.1) (b.2 + d.2) := rfl
      _ ≤ heuristic s.1 s.2 b.1 b.2 + 1 := hstep
      _ ≤ (n : Int) + 1 := by omega

theorem countEmpty_le_rect (grid : Grid) (cols : Nat)
    (h : ∀ row ∈ grid, row.length = cols) :
    countEmpty grid ≤ grid.length * cols := by
  induction grid with
  | nil => simp [countEmpty]
  | cons row g ih =>
    rw [countEmpty_cons]
    have h1 : row.countP (fun s => s == State.kEmpty) ≤ cols := by
      have := List.countP_le_length (fun s => s == State.kEmpty) (l := row)
      rw [h row (by simp)] at this
      exact this
    have h2 := ih (fun r hr => h r (List.mem_cons_of_mem row hr))
    have h3 : (row :: g).length * cols = g.length * cols + cols := by
      rw [List.length_cons, Nat.succ_mul]
    omega

theorem readGridAux_some {lines : List (List Char)}
    (h : ∀ l ∈ lines, parseLine l ≠ []) :
    readGridAux lines = some (lines.map parseLine) := by
  induction lines with
  | nil => rfl
  | cons l rest ih =>
    unfold readGridAux
    rw [if_neg (by
      rw [List.isEmpty_iff]
      exact h l (by simp))]
    rw [ih (fun l2 h2 => h l2 (List.mem_cons_of_mem l h2))]
    rfl

theorem readGridAux_none {lines : List (List Char)}
    (h : ∃ l ∈ lines, parseLine l = []) :
    readGridAux lines = none := by
  induction lines with
  | nil => simp at h
  | cons l rest ih =>
    unfold readGridAux
    by_cases hl : parseLine l = []
    · rw [if_pos (by rw [List.isEmpty_iff]; exact hl)]
    · rw [if_neg (by rw [List.isEmpty_iff]; exact hl)]
      rcases h with ⟨l2, hl2, hp2⟩
      rcases List.mem_cons.mp hl2 with rfl | hl2
      · exact absurd hp2 hl
      · rw [ih ⟨l2, hl2, hp2⟩]
        rfl

/-! ## The search contract at top level -/

theorem searchPathT_spec (grid : Grid) (init goal : Int × Int) :
    (∀ nd ∈ (searchPathT grid init goal).2.1,
      nd ∈ (searchPathT grid init goal).2.2) ∧
    (∀ nd ∈ (searchPathT grid init goal).2.2, ∃ n : Nat, nd.g = (n : Int) ∧
      ReachN grid init (nd.x, nd.y) n) ∧
    ((searchPathT grid init goal).2.2.map coordOf).Nodup ∧
    (searchPathT grid init goal).2.2.length ≤ 1 + countEmpty grid ∧
    (searchPathT grid init goal).2.1.length ≤
      (searchPathT grid init goal).2.2.length ∧
    (cellAt grid init.1 init.2 = State.kEmpty →
      ∀ nd ∈ (searchPathT grid init goal).2.2,
        cellAt grid nd.x nd.y ≠ State.kObstacle) ∧
    (((searchPathT grid init goal).1 = [] ∧
      ∀ nd ∈ (searchPathT grid init goal).2.1,
        ¬(nd.x = goal.1 ∧ nd.y = goal.2)) ∨
     ((∃ nd ∈ (searchPathT grid init goal).2.1,
        nd.x = goal.1 ∧ nd.y = goal.2) ∧
      shapeOf (searchPathT grid init goal).1 = shapeOf grid ∧
      (cellAt grid init.1 init.2 = State.kEmpty → init ≠ goal →
        cellAt (searchPathT grid init goal).1 init.1 init.2 = State.kStart ∧
        cellAt (searchPathT grid init goal).1 goal.1 goal.2 = State.kFinish ∧
        (∀ x y : Int, cellAt grid x y = State.kObstacle →
          cellAt (searchPathT grid init goal).1 x y = State.kObstacle) ∧
        (∀ nd ∈ (searchPathT grid init goal).2.1,
          ¬(nd.x = goal.1 ∧ nd.y = goal.2) →
          ¬(nd.x = init.1 ∧ nd.y = init.2) →
          cellAt (searchPathT grid init goal).1 nd.x nd.y = State.kPath)))) := by
  have hsome := searchPathO_eq_some_searchPathT grid init goal
  rw [searchPathO_eq] at hsome
  exact run_master grid init goal _ _ _ _ _ _ hsome (inv_init grid init goal)

theorem searchPathT_complete (grid : Grid) (init goal : Int × Int)
    (h : ∃ n : Nat, ReachN grid init goal n) :
    ∃ nd ∈ (searchPathT grid init goal).2.1,
      nd.x = goal.1 ∧ nd.y = goal.2 := by
  have hsome := searchPathO_eq_some_searchPathT grid init goal
  rw [searchPathO_eq] at hsome
  refine run_complete grid init goal _ _ _ _ _ _ hsome
    (inv_init grid init goal) ?_
  rcases h with ⟨n, hr⟩
  have hF : ReachF grid goal init := reachN_to_reachF hr
  refine ⟨startNodeOf init goal, by simp, ?_⟩
  rcases reachF_setCell init.1 init.2 State.kClosed hF with h1 | h1
  · exact h1
  · exact h1

/-! ## The claims -/

/-- Claim C2: at every iteration the node selected and removed from the
open list — the back of the list after the descending full re-sort by
`f = g + h` — belongs to the open list and has minimal `f` among all nodes
currently in it: the descending re-sort followed by popping the last
element is a correct min-f extraction. -/
theorem sortNodes_pop_back_min_f (opn : List SearchNode) (h : opn ≠ []) :
    (sortNodes opn).getLastD ⟨0, 0, 0, 0⟩ ∈ opn ∧
    ∀ nd ∈ opn,
      fval ((sortNodes opn).getLastD ⟨0, 0, 0, 0⟩) ≤ fval nd :=
  ⟨curOf_mem h, curOf_min_f opn⟩

/-- Witness for C2 at a concrete two-node open list. -/
theorem sortNodes_pop_back_min_f_witness :
    (([⟨0, 0, 3, 1⟩, ⟨1, 1, 1, 1⟩] : List SearchNode) ≠ []) ∧
    ((sortNodes [⟨0, 0, 3, 1⟩, ⟨1, 1, 1, 1⟩]).getLastD ⟨0, 0, 0, 0⟩ ∈
      ([⟨0, 0, 3, 1⟩, ⟨1, 1, 1, 1⟩] : List SearchNode) ∧
     ∀ nd ∈ ([⟨0, 0, 3, 1⟩, ⟨1, 1, 1, 1⟩] : List SearchNode),
       fval ((sortNodes [⟨0, 0, 3, 1⟩, ⟨1, 1, 1, 1⟩]).getLastD ⟨0, 0, 0, 0⟩) ≤
         fval nd) :=
  ⟨by decide, sortNodes_pop_back_min_f [⟨0, 0, 3, 1⟩, ⟨1, 1, 1, 1⟩] (by decide)⟩

/-- Claim C3: on success (the dequeued node's coordinate equals the goal)
the returned grid has the start cell set to `kStart` and the goal cell set
to `kFinish`; the goal was dequeued, and every node dequeued earlier that
is neither the goal nor the start cell shows as `kPath` in the returned
grid — the full expansion trace, not a reconstructed route. -/
theorem searchPath_success_markings (grid : Grid) (init goal : Int × Int)
    (hE : cellAt grid init.1 init.2 = State.kEmpty) (hne : init ≠ goal) :
    searchPath grid init goal ≠ [] →
      cellAt (searchPath grid init goal) init.1 init.2 = State.kStart ∧
      cellAt (searchPath grid init goal) goal.1 goal.2 = State.kFinish ∧
      (∃ nd ∈ (searchPathT grid init goal).2.1,
        nd.x = goal.1 ∧ nd.y = goal.2) ∧
      ∀ nd ∈ (searchPathT grid init goal).2.1,
        ¬(nd.x = goal.1 ∧ nd.y = goal.2) → ¬(nd.x = init.1 ∧ nd.y = init.2) →
        cellAt (searchPath grid init goal) nd.x nd.y = State.kPath := by
  intro hnem
  rcases (searchPathT_spec grid init goal).2.2.2.2.2.2 with
    ⟨hempty, _⟩ | ⟨hgoal, _, hfacts⟩
  · exact absurd hempty hnem
  · obtain ⟨h1, h2, _, h4⟩ := hfacts hE hne
    exact ⟨h1, h2, hgoal, h4⟩

/-- Witness for C3 on Scenario A. -/
theorem searchPath_success_markings_witness :
    cellAt (searchPath scenarioA (0, 0) (2, 2)) 0 0 = State.kStart ∧
    cellAt (searchPath scenarioA (0, 0) (2, 2)) 2 2 = State.kFinish := by
  have h := searchPath_success_markings scenarioA (0, 0) (2, 2)
    (by decide) (by decide) (by decide)
  exact ⟨h.1, h.2.1⟩

/-- Claim C4: neighbours are examined in the fixed order up, left, down,
right of `direction_delta`; a neighbour is appended to the open list iff
its position is in-bounds and `kEmpty` (`validOpenNodePos`), it receives
`g + 1` and the Manhattan heuristic, and its cell is marked `kClosed`
(Visited) at enqueue time; consequently over a whole search no coordinate
is ever enqueued twice. -/
theorem expandNeighbours_contract :
    direction_delta = [(-1, 0), (0, -1), (1, 0), (0, 1)] ∧
    (∀ (c : SearchNode) (goal : Int × Int) (opn : List SearchNode) (grid : Grid),
      (expandNeighbours c goal opn grid).1 = opn ++
        (direction_delta.filter
          (fun d => validOpenNodePos (c.x + d.1) (c.y + d.2) grid)).map
          (fun d => (⟨c.x + d.1, c.y + d.2, c.g + 1,
            heuristic (c.x + d.1) (c.y + d.2) goal.1 goal.2⟩ : SearchNode)) ∧
      (∀ x y : Int, cellAt (expandNeighbours c goal opn grid).2 x y =
        if (x, y) ∈ (direction_delta.filter
            (fun d => validOpenNodePos (c.x + d.1) (c.y + d.2) grid)).map
            (fun d => ((c.x + d.1, c.y + d.2) : Int × Int))
        then State.kClosed else cellAt grid x y)) ∧
    (∀ (grid : Grid) (init goal : Int × Int),
      (((searchPathT grid init goal).2.2).map coordOf).Nodup) := by
  refine ⟨rfl, ?_, ?_⟩
  · intro c goal opn grid
    obtain ⟨h1, h2, _, _⟩ := expandNeighbours_spec c goal opn grid
    exact ⟨h1, h2⟩
  · intro grid init goal
    exact (searchPathT_spec grid init goal).2.2.1

/-- Claim C5: when the open list empties without the goal having been
dequeued the search returns the empty grid — the ordinary NoPathFound
result value of `searchPath`, not an exception; in particular this happens
whenever no 4-connected path of `kEmpty` cells joins start and goal, and
concretely on Scenario B. -/
theorem searchPath_no_path_returns_empty :
    (∀ (grid : Grid) (init goal : Int × Int),
      (¬ ∃ n : Nat, ReachN grid init goal n) →
      searchPath grid init goal = []) ∧
    searchPath scenarioB (0, 0) (0, 2) = [] := by
  constructor
  · intro grid init goal hn
    rcases (searchPathT_spec grid init goal).2.2.2.2.2.2 with
      ⟨hempty, _⟩ | ⟨⟨nd, hnd, hco⟩, _⟩
    · exact hempty
    · exfalso
      have hsub := (searchPathT_spec grid init goal).1 nd hnd
      obtain ⟨n, _, hr⟩ := (searchPathT_spec grid init goal).2.1 nd hsub
      apply hn
      refine ⟨n, ?_⟩
      have hpair : ((nd.x, nd.y) : Int × Int) = goal :=
        Prod.ext_iff.mpr ⟨hco.1, hco.2⟩
      rw [← hpair]
      exact hr
  · decide

/-- Claim C6: for a rectangular grid with in-bounds, distinct, `kEmpty`
start and goal, the search terminates — the a-priori fuel is never
exhausted — and both the number of nodes ever added to the open list and
the number of loop iterations (dequeues) are at most rows × cols plus one
for the initial start node. -/
theorem searchPath_iteration_bound (grid : Grid) (init goal : Int × Int)
    (cols : Nat)
    (hrect : ∀ row ∈ grid, row.length = cols)
    (hvi : validPosOnGrid init.1 init.2 grid = true)
    (hvg : validPosOnGrid goal.1 goal.2 grid = true)
    (hne : init ≠ goal)
    (hEi : cellAt grid init.1 init.2 = State.kEmpty)
    (hEg : cellAt grid goal.1 goal.2 = State.kEmpty) :
    (searchPathO grid init goal).isSome = true ∧
    (searchPathT grid init goal).2.2.length ≤ grid.length * cols + 1 ∧
    (searchPathT grid init goal).2.1.length ≤ grid.length * cols + 1 := by
  have hs := searchPathT_spec grid init goal
  have hc := countEmpty_le_rect grid cols hrect
  have h1 := hs.2.2.2.1
  have h2 := hs.2.2.2.2.1
  exact ⟨searchPathO_isSome grid init goal, by omega, by omega⟩

/-- Witness for C6 on Scenario A. -/
theorem searchPath_iteration_bound_witness :
    (searchPathT scenarioA ((0 : Int), (0 : Int)) ((2 : Int), (2 : Int))).2.2.length ≤
      scenarioA.length * 3 + 1 :=
  (searchPath_iteration_bound scenarioA (0, 0) (2, 2) 3 (by decide) (by decide)
    (by decide) (by decide) (by decide) (by decide)).2.1

/-- Claim C7: cells that are `kObstacle` in the input grid are never
enqueued and never expanded (no node of the enqueue or dequeue trace sits
on one), and in a successfully returned grid every cell that was
`kObstacle` in the input is still `kObstacle`. -/
theorem searchPath_obstacles_immutable (grid : Grid) (init goal : Int × Int)
    (hE : cellAt grid init.1 init.2 = State.kEmpty) (hne : init ≠ goal) :
    (∀ nd ∈ (searchPathT grid init goal).2.2,
      cellAt grid nd.x nd.y ≠ State.kObstacle) ∧
    (∀ nd ∈ (searchPathT grid init goal).2.1,
      cellAt grid nd.x nd.y ≠ State.kObstacle) ∧
    (searchPath grid init goal ≠ [] →
      ∀ x y : Int, cellAt grid x y = State.kObstacle →
        cellAt (searchPath grid init goal) x y = State.kObstacle) := by
  have hs := searchPathT_spec grid init goal
  refine ⟨hs.2.2.2.2.2.1 hE, ?_, ?_⟩
  · intro nd hnd
    exact hs.2.2.2.2.2.1 hE nd (hs.1 nd hnd)
  · intro hnem x y hob
    rcases hs.2.2.2.2.2.2 with ⟨hempty, _⟩ | ⟨_, _, hfacts⟩
    · exact absurd hempty hnem
    · exact (hfacts hE hne).2.2.1 x y hob

/-- Witness for C7 on Scenario A: the obstacle cell (1,1) survives. -/
theorem searchPath_obstacles_immutable_witness :
    cellAt (searchPath scenarioA (0, 0) (2, 2)) 1 1 = State.kObstacle :=
  (searchPath_obstacles_immutable scenarioA (0, 0) (2, 2) (by decide)
    (by decide)).2.2 (by decide) 1 1 (by decide)

/-- Claim C9: the search is deterministic — run on two equal (independent
copies of the same) grids with the same start and goal it returns identical
output grids.  The embedding is a pure function, so determinism is
congruence. -/
theorem searchPath_deterministic (g1 g2 : Grid) (init goal : Int × Int)
    (h : g1 = g2) : searchPath g1 init goal = searchPath g2 init goal := by
  rw [h]

/-- Witness for C9: two syntactically independent copies of Scenario A. -/
theorem searchPath_deterministic_witness :
    searchPath scenarioA (0, 0) (2, 2) =
      searchPath [[State.kEmpty, State.kEmpty, State.kEmpty],
        [State.kEmpty, State.kObstacle, State.kEmpty],
        [State.kEmpty, State.kEmpty, State.kEmpty]] (0, 0) (2, 2) :=
  searchPath_deterministic scenarioA
    [[State.kEmpty, State.kEmpty, State.kEmpty],
      [State.kEmpty, State.kObstacle, State.kEmpty],
      [State.kEmpty, State.kEmpty, State.kEmpty]] (0, 0) (2, 2) (by decide)

/-- Claim C10: for every input, `searchPath` returns either a grid of
exactly the input's shape (success) or the empty grid with zero rows (the
failure marker the caller branches on). -/
theorem searchPath_shape_or_empty (grid : Grid) (init goal : Int × Int) :
    searchPath grid init goal = [] ∨
      shapeOf (searchPath grid init goal) = shapeOf grid := by
  rcases (searchPathT_spec grid init goal).2.2.2.2.2.2 with
    ⟨hempty, _⟩ | ⟨_, hshape, _⟩
  · exact Or.inl hempty
  · exact Or.inr hshape

/-- Claim C1, counterexample: the claim as stated (`C1Statement`) is false.
On the 2×5 grid `cexGrid` with start (0,4) and goal (1,0) the shortest
4-connected path through `kEmpty` cells has length 5 (a 5-step path exists
and 5 is the Manhattan distance, a lower bound), yet the search dequeues
the goal with g = 7: an f-tie at the very first expansion sends the search
along the bottom row, and because cells are closed at enqueue time the
top-row cells can never be re-opened with their cheaper costs. -/
theorem searchPath_goal_g_not_shortest : ¬ C1Statement := by
  intro h
  have s1 : stepOK cexGrid (0, 4) (0, 3) :=
    ⟨⟨(0, -1), by decide, by decide⟩, by decide⟩
  have s2 : stepOK cexGrid (0, 3) (0, 2) :=
    ⟨⟨(0, -1), by decide, by decide⟩, by decide⟩
  have s3 : stepOK cexGrid (0, 2) (0, 1) :=
    ⟨⟨(0, -1), by decide, by decide⟩, by decide⟩
  have s4 : stepOK cexGrid (0, 1) (0, 0) :=
    ⟨⟨(0, -1), by decide, by decide⟩, by decide⟩
  have s5 : stepOK cexGrid (0, 0) (1, 0) :=
    ⟨⟨(1, 0), by decide, by decide⟩, by decide⟩
  have h5 : ReachN cexGrid (0, 4) (1, 0) 5 :=
    ReachN.snoc (ReachN.snoc (ReachN.snoc (ReachN.snoc
      (ReachN.snoc ReachN.refl s1) s2) s3) s4) s5
  have hmin : ∀ d', ReachN cexGrid (0, 4) (1, 0) d' → 5 ≤ d' := by
    intro d' hd'
    have hman : heuristic (0 : Int) 4 1 0 ≤ (d' : Int) := reachN_manhattan hd'
    have h5' : heuristic (0 : Int) 4 1 0 = 5 := by decide
    rw [h5'] at hman
    omega
  have happ := h cexGrid (0, 4) (1, 0) 5 5 (by decide) (by decide) (by decide)
    (by decide) (by decide) (by decide) h5 hmin
  have hval : firstGoalG cexGrid (0, 4) (1, 0) = some 7 := by decide
  rw [hval] at happ
  exact absurd (Option.some.inj happ) (by decide)

/-- Claim C1, amended: for every rectangular grid with in-bounds, distinct,
`kEmpty` start and goal between which a 4-connected path of `kEmpty` cells
exists, the search does dequeue the goal, and the first time it does, that
node's g value is the length of SOME 4-connected path of `kEmpty` cells
from start to goal — hence at least the shortest length, but (per the
counterexample) possibly more; in particular, for the 3×3 grid of
Scenario A with start (0,0) and goal (2,2) the search succeeds and g at
the goal equals 4, the shortest length. -/
theorem searchPath_goal_g_realizes_a_path :
    (∀ (grid : Grid) (init goal : Int × Int) (cols : Nat),
      (∀ row ∈ grid, row.length = cols) →
      validPosOnGrid init.1 init.2 grid = true →
      validPosOnGrid goal.1 goal.2 grid = true →
      init ≠ goal →
      cellAt grid init.1 init.2 = State.kEmpty →
      cellAt grid goal.1 goal.2 = State.kEmpty →
      (∃ n : Nat, ReachN grid init goal n) →
      ∃ n : Nat, firstGoalG grid init goal = some ((n : Nat) : Int) ∧
        ReachN grid init goal n) ∧
    firstGoalG scenarioA (0, 0) (2, 2) = some 4 := by
  constructor
  · intro grid init goal cols hrect hvi hvg hne hEi hEg hreach
    have hex := searchPathT_complete grid init goal hreach
    have hfind : ∃ ndf, ((searchPathT grid init goal).2.1.find?
        (fun nd => nd.x == goal.1 && nd.y == goal.2)) = some ndf := by
      rw [← Option.isSome_iff_exists, List.find?_isSome]
      rcases hex with ⟨ndg, hndg, hco⟩
      exact ⟨ndg, hndg, by simp [hco.1, hco.2]⟩
    rcases hfind with ⟨ndf, hndf⟩
    have hp := List.find?_some hndf
    have hmem := List.mem_of_find?_eq_some hndf
    have hsub := (searchPathT_spec grid init goal).1 ndf hmem
    obtain ⟨n, hgn, hrn⟩ := (searchPathT_spec grid init goal).2.1 ndf hsub
    refine ⟨n, ?_, ?_⟩
    · unfold firstGoalG
      rw [hndf]
      simp [hgn]
    · have hco : ndf.x = goal.1 ∧ ndf.y = goal.2 := by
        simpa using hp
      have hpair : ((ndf.x, ndf.y) : Int × Int) = goal := Prod.ext_iff.mpr hco
      rw [← hpair]
      exact hrn
  · decide

/-- Claim C8, counterexample: the loader accepts non-rectangular grids and
does not treat every malformed line as fatal.  The two-line file
`"0,0,"`/`"0,"` loads as a grid whose rows have lengths 2 and 1, and the
single-line file `"0,#,0,"` — whose second token `#` is non-numeric —
loads as the truncated one-cell row instead of invalidating the grid. -/
theorem readGridFile_not_all_or_nothing :
    readGridFile ["0,0,".toList, "0,".toList] =
      [[State.kEmpty, State.kEmpty], [State.kEmpty]] ∧
    (readGridFile ["0,0,".toList, "0,".toList]).map List.length = [2, 1] ∧
    readGridFile ["0,#,0,".toList] = [[State.kEmpty]] ∧
    readGridFile ["0,#,0,".toList] ≠ [] := by
  refine ⟨by decide, by decide, by decide, by decide⟩

/-- Claim C8, amended: the loader parses each line into the row given by
its longest prefix of well-formed "integer comma" pairs; the entire load
fails (returns the empty grid) exactly when some line's parsed row is
empty — e.g. when its first token is non-numeric.  Rows of unequal length
are not rejected, and a malformed token after the first well-formed pair
merely truncates that line's row. -/
theorem readGridFile_characterisation :
    ∀ lines : List (List Char),
      (readGridFile lines = lines.map parseLine ∧
        ∀ l ∈ lines, parseLine l ≠ []) ∨
      (readGridFile lines = [] ∧ ∃ l ∈ lines, parseLine l = []) := by
  intro lines
  by_cases h : ∀ l ∈ lines, parseLine l ≠ []
  · refine Or.inl ⟨?_, h⟩
    unfold readGridFile
    rw [readGridAux_some h]
    rfl
  · push_neg at h
    rcases h with ⟨l, hl, hp⟩
    refine Or.inr ⟨?_, ⟨l, hl, hp⟩⟩
    unfold readGridFile
    rw [readGridAux_none ⟨l, hl, hp⟩]
    rfl

end RoutePlanner
